import Mathlib

set_option linter.all false

/- Shallow embedding of the data-cleaning core of the
   multinational-retail-data-centralisation repository
   (src/data_cleaning.py, src/data_extraction.py, src/main.py).

   Tables model pandas DataFrames: a list of column names and a list of
   rows, each row a list of cells.  Cells are strings, missing markers
   (NaN/NaT/None), time-of-day values, dates (pandas Timestamps),
   booleans, or floats (modelled as exact rationals).  Cleaners return
   `Except Unit Table`; `Except.error ()` models an uncaught Python
   exception (KeyError / TypeError / ValueError / AttributeError).
   Regular-expression behaviour (`re.search` and `re.match` anchoring,
   `$` also matching just before one trailing newline, greedy matching
   with backtracking) is translated concretely for each pattern that
   appears in the source.  Character classes are modelled over ASCII. -/

/-! ## Character classes (ASCII fragment of Python's `re` classes) -/

def isUpperCh (c : Char) : Bool := decide (65 ≤ c.toNat ∧ c.toNat ≤ 90)

def isLowerCh (c : Char) : Bool := decide (97 ≤ c.toNat ∧ c.toNat ≤ 122)

def isDigitCh (c : Char) : Bool := decide (48 ≤ c.toNat ∧ c.toNat ≤ 57)

def isAlnumCh (c : Char) : Bool := isUpperCh c || isLowerCh c || isDigitCh c

def isWordCh (c : Char) : Bool := isAlnumCh c || decide (c.toNat = 95)

def isSpaceCh (c : Char) : Bool :=
  decide (c.toNat = 32 ∨ c.toNat = 9 ∨ c.toNat = 10 ∨ c.toNat = 13 ∨
    c.toNat = 11 ∨ c.toNat = 12)

def isUpperDigitCh (c : Char) : Bool := isUpperCh c || isDigitCh c

def isDigDotCh (c : Char) : Bool := isDigitCh c || decide (c.toNat = 46)

def digitVal (c : Char) : Nat := c.toNat - 48

/-- The decimal digit character of `n % 10`. -/
def digCh (n : Nat) : Char :=
  match n % 10 with
  | 0 => '0' | 1 => '1' | 2 => '2' | 3 => '3' | 4 => '4'
  | 5 => '5' | 6 => '6' | 7 => '7' | 8 => '8' | _ => '9'

/-- Two-digit zero-padded rendering (`%02d`) of a value below 100. -/
def pad2 (n : Nat) : List Char := [digCh (n / 10), digCh n]

/-- Four-digit zero-padded rendering (`%04d`, strftime `%Y`) of a value
below 10000. -/
def pad4 (n : Nat) : List Char :=
  [digCh (n / 1000), digCh (n / 100), digCh (n / 10), digCh n]

/-- Numeric value of a digit string (underscores, legal in Python int
literals, are skipped; `digitsVal` is only applied to strings accepted
by the corresponding syntactic check). -/
def digitsVal (cs : List Char) : Nat :=
  cs.foldl (fun acc c => if c = '_' then acc else acc * 10 + digitVal c) 0

/-! ## Cells and tables -/

/-- A DataFrame cell.  `na` covers NaN, NaT and None; `num` models a
Python float as an exact rational. -/
inductive Cell where
  | str : String → Cell
  | na : Cell
  | time : Nat → Nat → Nat → Cell
  | date : Nat → Nat → Nat → Cell
  | boolean : Bool → Cell
  | num : ℚ → Cell
deriving DecidableEq, Repr

/-- Rendering of a float cell.  Python's `str(float)` always contains a
character outside `[A-Za-z0-9]` (a dot, or a sign in exponent notation);
this model keeps that property exactly. -/
def floatStr (q : ℚ) : String :=
  if q.den = 1 then toString q.num ++ ".0"
  else toString q.num ++ "/" ++ toString q.den

/-- Python `str()` of a cell value, as used by the row-validity filter
and by `astype(str)`: `str(nan) = "nan"`, `str(True) = "True"`,
`str(time) = "HH:MM:SS"`, `str(Timestamp) = "YYYY-MM-DD HH:MM:SS"`. -/
def cellStr : Cell → String
  | .str s => s
  | .na => "nan"
  | .time h m s => ⟨pad2 h ++ ':' :: pad2 m ++ ':' :: pad2 s⟩
  | .date y m d => ⟨pad4 y ++ '-' :: pad2 m ++ '-' :: pad2 d⟩ ++ " 00:00:00"
  | .boolean b => if b then "True" else "False"
  | .num q => floatStr q

/-- A DataFrame: ordered named columns and rows of cells aligned by
position. -/
structure Table where
  cols : List String
  rows : List (List Cell)
deriving DecidableEq, Repr

/-- Rectangularity invariant of a DataFrame. -/
def Table.WF (t : Table) : Prop :=
  ∀ r ∈ t.rows, r.length = t.cols.length

/-- Cell of a row at a column index (rows are aligned with `cols`). -/
def rowGet (r : List Cell) (i : Nat) : Cell := r.getD i Cell.na

/-- `mapM` over `Except Unit`, written out for proof convenience.  A
single raising element aborts the whole computation, as a raising
`Series.apply` callback does. -/
def exceptMapM (f : α → Except Unit β) : List α → Except Unit (List β)
  | [] => .ok []
  | a :: l =>
    match f a with
    | .error _ => .error ()
    | .ok b =>
      match exceptMapM f l with
      | .error _ => .error ()
      | .ok bs => .ok (b :: bs)

/-- Keep the elements of `l` whose aligned entry in `mask` is `true`
(boolean-mask row selection `data[mask]`). -/
def maskFilter : List α → List Bool → List α
  | [], _ => []
  | _, [] => []
  | a :: l, b :: m => if b then a :: maskFilter l m else maskFilter l m

/-- Index of the first element satisfying `p` (pandas column lookup). -/
def findIdxA (p : α → Bool) : List α → Option Nat
  | [] => none
  | a :: l => if p a then some 0 else (findIdxA p l).map (fun i => i + 1)

def Table.colIdx (t : Table) (c : String) : Option Nat :=
  findIdxA (fun x => x == c) t.cols

/-- Column extraction `data[c]`; a missing column raises `KeyError`. -/
def Table.getColCells (t : Table) (c : String) : Except Unit (List Cell) :=
  match t.colIdx c with
  | none => .error ()
  | some i => .ok (t.rows.map (fun r => rowGet r i))

/-- `data[c] = data[c].apply(f)` for a pure callback `f`. -/
def Table.mapCol (t : Table) (c : String) (f : Cell → Cell) :
    Except Unit Table :=
  match t.colIdx c with
  | none => .error ()
  | some i =>
    .ok { t with rows := t.rows.map (fun r => r.set i (f (rowGet r i))) }

/-- `data[c] = data[c].apply(f)` for a callback that can raise. -/
def Table.mapColE (t : Table) (c : String) (f : Cell → Except Unit Cell) :
    Except Unit Table :=
  match t.colIdx c with
  | none => .error ()
  | some i =>
    match exceptMapM (fun r => f (rowGet r i)) t.rows with
    | .error _ => .error ()
    | .ok vs => .ok { t with rows := List.zipWith (fun r v => r.set i v) t.rows vs }

/-- `data = data[data[c].apply(p)]` for a pure predicate `p`. -/
def Table.filterCol (t : Table) (c : String) (p : Cell → Bool) :
    Except Unit Table :=
  match t.colIdx c with
  | none => .error ()
  | some i => .ok { t with rows := t.rows.filter (fun r => p (rowGet r i)) }

/-- Row selection through a computed column, `data = data[f(data[c]).apply(p)]`
in shape: the values `f` of the column are computed for every row first
(so one raising cell aborts the step even if its row would have been
dropped anyway), then rows are kept by the boolean mask `p`. -/
def Table.filterColVal (t : Table) (c : String) (f : Cell → Except Unit β)
    (p : β → Bool) : Except Unit Table :=
  match t.getColCells c with
  | .error _ => .error ()
  | .ok cells =>
    match exceptMapM f cells with
    | .error _ => .error ()
    | .ok vs => .ok { t with rows := maskFilter t.rows (vs.map p) }

/-- `data = data[data[c].apply(p)]` for a predicate that can raise. -/
def Table.filterColE (t : Table) (c : String) (p : Cell → Except Unit Bool) :
    Except Unit Table :=
  t.filterColVal c p (fun b => b)

/-- `data = data[data[c]]` for a boolean marker column. -/
def Table.filterColBool (t : Table) (c : String) : Except Unit Table :=
  t.filterColE c (fun cl =>
    match cl with
    | .boolean b => .ok b
    | _ => .error ())

/-- `data[name] = vals`: overwrite the column in place if it already
exists, otherwise append it as the last column. -/
def Table.addOrSetCol (t : Table) (name : String) (vals : List Cell) : Table :=
  match t.colIdx name with
  | some i => { t with rows := List.zipWith (fun r v => r.set i v) t.rows vals }
  | none =>
    { cols := t.cols ++ [name]
      rows := List.zipWith (fun r v => r ++ [v]) t.rows vals }

/-- `data.drop(columns=[name])` (default `errors='raise'`). -/
def Table.dropColStrict (t : Table) (name : String) : Except Unit Table :=
  match t.colIdx name with
  | none => .error ()
  | some i =>
    .ok { cols := t.cols.eraseIdx i, rows := t.rows.map (fun r => r.eraseIdx i) }

/-- `data.drop(columns=names, errors='ignore')`: remove all columns
whose name occurs in `names`, keeping the rest aligned. -/
def Table.dropColsIgnore (t : Table) (names : List String) : Table :=
  let mask := t.cols.map (fun c => !(names.contains c))
  { cols := maskFilter t.cols mask
    rows := t.rows.map (fun r => maskFilter r mask) }

/-- `data.rename(columns={old: new})` (missing names are ignored). -/
def Table.renameCol (t : Table) (old new : String) : Table :=
  { t with cols := t.cols.map (fun c => if c = old then new else c) }

/-! ## The row-validity filter (shared corrupted-token primitive) -/

/-- Match of `^pattern$`-shaped regexes under Python semantics: with an
anchored `^`, `re.search` and `re.match` agree, and `$` also matches
just before a single trailing newline. -/
def anchoredMatch (check : List Char → Bool) (s : String) : Bool :=
  check s.toList ||
    (match s.toList.getLast? with
     | some c => decide (c = '\n') && check s.toList.dropLast
     | none => false)

/-- Character-level body of `r'^[A-Z0-9][A-Za-z0-9]{9}$'`. -/
def tokChars : List Char → Bool
  | [] => false
  | c :: rest => isUpperDigitCh c && decide (rest.length = 9) && rest.all isAlnumCh

/-- `re.search(r'^[A-Z0-9][A-Za-z0-9]{9}$', str(value))` is truthy. -/
def corruptedToken (s : String) : Bool := anchoredMatch tokChars s

/-- `contains_pattern(row)` from `data_cleaning.py`: some cell's string
representation matches the corrupted-token pattern. -/
def contains_pattern (r : List Cell) : Bool :=
  r.any (fun c => corruptedToken (cellStr c))

/-- `data[~data.apply(contains_pattern, axis=1)]`: the row-validity
filter applied across all columns. -/
def Table.rvFilter (t : Table) : Table :=
  { t with rows := t.rows.filter (fun r => !contains_pattern r) }

/-! ## NULL sentinel handling -/

/-- `data.replace("NULL", np.nan)` cell-wise. -/
def sentinelToNa (c : Cell) : Cell := if c = .str "NULL" then .na else c

def rowHasNa (r : List Cell) : Bool := r.any (fun c => c == Cell.na)

/-- `data.replace("NULL", np.nan); data.dropna()`. -/
def Table.replaceNullDropna (t : Table) : Table :=
  { t with rows := (t.rows.map (List.map sentinelToNa)).filter (fun r => !rowHasNa r) }

/-! ## Python value parsers used by the cleaners -/

/-- Day count of a month under the proleptic Gregorian calendar, as
enforced by `datetime.datetime`'s constructor. -/
def daysInMonth (y m : Nat) : Nat :=
  if m = 2 then
    if y % 4 = 0 && (y % 100 ≠ 0 || y % 400 = 0) then 29 else 28
  else if m = 4 ∨ m = 6 ∨ m = 9 ∨ m = 11 then 30 else 31

/-- Day segment of `strptime('%Y-%m-%d')`: the `%d` regex
`(3[01]|[1-2]\d|0[1-9]|[1-9]|[1-2])` followed by end of input (leftover
characters raise "unconverted data remains"), then the calendar check
done by the `datetime` constructor. -/
def strptimeDay (y m : Nat) : List Char → Bool
  | [a, b] =>
    isDigitCh a && isDigitCh b &&
      (let d := digitVal a * 10 + digitVal b
       decide (1 ≤ d ∧ d ≤ daysInMonth y m))
  | [a] => isDigitCh a && decide (1 ≤ digitVal a ∧ digitVal a ≤ daysInMonth y m)
  | _ => false

/-- Month-and-day tail of `strptime('%Y-%m-%d')`: the `%m` regex
`(1[0-2]|0[1-9]|[1-9])` prefers a two-digit match, backtracking to one
digit when the literal `-` that follows cannot be matched. -/
def strptimeMonthDay (y : Nat) : List Char → Bool
  | a :: b :: '-' :: rest =>
    isDigitCh a && isDigitCh b &&
      (let m := digitVal a * 10 + digitVal b
       decide (1 ≤ m ∧ m ≤ 12) && strptimeDay y m rest)
  | a :: '-' :: rest =>
    isDigitCh a && decide (1 ≤ digitVal a) && strptimeDay y (digitVal a) rest
  | _ => false

/-- `is_valid_date` from `data_cleaning.py`:
`datetime.strptime(date, '%Y-%m-%d')` succeeds (`%Y` is exactly four
digits; year 0 is rejected by the `datetime` constructor). -/
def is_valid_date (s : String) : Bool :=
  match s.toList with
  | y1 :: y2 :: y3 :: y4 :: '-' :: rest =>
    isDigitCh y1 && isDigitCh y2 && isDigitCh y3 && isDigitCh y4 &&
      (let y := digitVal y1 * 1000 + digitVal y2 * 100 + digitVal y3 * 10 + digitVal y4
       decide (1 ≤ y) && strptimeMonthDay y rest)
  | _ => false

/-- `strptime` applied to a cell: a non-string argument raises
`TypeError`, which the source's `is_valid_date` does not catch. -/
def isValidDateCell (c : Cell) : Except Unit Bool :=
  match c with
  | .str s => .ok (is_valid_date s)
  | _ => .error ()

/-- Seconds segment of `'%H:%M:%S'`: `(6[0-1]|[0-5]\d|\d)` followed by
end of input (pandas matches the format against the whole string). -/
def strpSeconds : List Char → Option Nat
  | [a, b] =>
    if isDigitCh a && isDigitCh b && decide (digitVal a * 10 + digitVal b ≤ 61) then
      some (digitVal a * 10 + digitVal b)
    else none
  | [a] => if isDigitCh a then some (digitVal a) else none
  | _ => none

/-- Minutes segment of `'%H:%M:%S'`: `([0-5]\d|\d)` then a literal `:`. -/
def strpMinutes : List Char → Option (Nat × List Char)
  | a :: b :: ':' :: rest =>
    if isDigitCh a && isDigitCh b && decide (digitVal a * 10 + digitVal b ≤ 59) then
      some (digitVal a * 10 + digitVal b, rest)
    else none
  | a :: ':' :: rest => if isDigitCh a then some (digitVal a, rest) else none
  | _ => none

/-- `pd.to_datetime(value, format='%H:%M:%S')`: hours segment
`(2[0-3]|[0-1]\d|\d)` then `:`, minutes, seconds characters. -/
def parseTimeHMS (s : String) : Option (Nat × Nat × Nat) :=
  match s.toList with
  | a :: b :: ':' :: rest =>
    if isDigitCh a && isDigitCh b && decide (digitVal a * 10 + digitVal b ≤ 23) then
      match strpMinutes rest with
      | some (m, rest2) =>
        match strpSeconds rest2 with
        | some sec => some (digitVal a * 10 + digitVal b, m, sec)
        | none => none
      | none => none
    else
      match rest with
      | _ => none
  | a :: ':' :: rest =>
    if isDigitCh a then
      match strpMinutes rest with
      | some (m, rest2) =>
        match strpSeconds rest2 with
        | some sec => some (digitVal a, m, sec)
        | none => none
      | none => none
    else none
  | _ => none

/-- The two timestamp lines of `clean_date_events_data`:
`pd.to_datetime(col, format='%H:%M:%S', errors='coerce')` followed by
`.dt.time`; unparseable or non-string cells coerce to a missing value. -/
def toTimeCell (c : Cell) : Cell :=
  match c with
  | .str s =>
    match parseTimeHMS s with
    | some (h, m, sec) => .time h m sec
    | none => .na
  | _ => .na

/-- Python `str.strip()` (whitespace at both ends). -/
def pyStrip (s : String) : String :=
  ⟨((s.toList.dropWhile isSpaceCh).reverse.dropWhile isSpaceCh).reverse⟩

/-- Digit run of a Python int literal after the first digit: digits with
single underscores allowed between digits. -/
def intDigitsRest : List Char → Bool
  | [] => true
  | '_' :: c :: rest => isDigitCh c && intDigitsRest rest
  | c :: rest => isDigitCh c && intDigitsRest rest

/-- Digit run of a Python int literal. -/
def intDigits : List Char → Bool
  | [] => false
  | c :: rest => isDigitCh c && intDigitsRest rest

/-- Python `int(str)` as used by `astype(int)`: optional surrounding
whitespace, optional sign, digit run; anything else raises
`ValueError`. -/
def pyIntParse (s : String) : Option Int :=
  match (pyStrip s).toList with
  | '-' :: rest => if intDigits rest then some (-(digitsVal rest : Int)) else none
  | '+' :: rest => if intDigits rest then some (digitsVal rest : Int) else none
  | rest => if intDigits rest then some (digitsVal rest : Int) else none

/-- `col.str.strip().astype(int)` on one cell: the `.str` accessor turns
a non-string into NaN and `astype(int)` then raises; a string that is
not an int literal also raises. -/
def stripIntCell (c : Cell) : Except Unit Int :=
  match c with
  | .str s =>
    match pyIntParse (pyStrip s) with
    | some v => .ok v
    | none => .error ()
  | _ => .error ()

/-- `col.str.isnumeric()` on one cell (ASCII: nonempty all-digit); the
boolean mask indexing raises on the NaN produced for a non-string. -/
def isNumericCell (c : Cell) : Except Unit Bool :=
  match c with
  | .str s => .ok (!s.toList.isEmpty && s.toList.all isDigitCh)
  | _ => .error ()

/-- `col.astype(int)` on one cell (reached only after an `isnumeric`
filter in the source). -/
def intCell (c : Cell) : Except Unit Int :=
  match c with
  | .str s =>
    match pyIntParse s with
    | some v => .ok v
    | none => .error ()
  | _ => .error ()

/-! ## Weight conversion (`convert_product_weights` / `convert_to_kg`) -/

/-- `\s*(\w+)` at the start of `cs`: greedy whitespace skip, then a
nonempty greedy word-character run (shortening the whitespace cannot
help, since `\s` and `\w` are disjoint). -/
def weightUnit (cs : List Char) : Option (List Char) :=
  let afterWs := cs.dropWhile isSpaceCh
  let u := afterWs.takeWhile isWordCh
  if u.isEmpty then none else some u

/-- Backtracking loop of `re.match(r"([\d.]+)\s*(\w+)", s)`: the greedy
`[\d.]+` group gives back one character at a time (from its maximal
run, held reversed in `rev`) until `\s*(\w+)` matches the remainder. -/
def weightLoop : List Char → List Char → Option (List Char × List Char)
  | [], _ => none
  | c :: rev, rest =>
    match weightUnit rest with
    | some u => some ((c :: rev).reverse, u)
    | none => weightLoop rev (c :: rest)

/-- `re.match(r"([\d.]+)\s*(\w+)", s)`: the numeric-looking value group
and the unit group, or `none` when the pattern does not match at the
start of the string. -/
def matchWeight (s : String) : Option (List Char × List Char) :=
  let p := s.toList.takeWhile isDigDotCh
  weightLoop p.reverse (s.toList.drop p.length)

/-- `float(value)` succeeds on a `[\d.]+` capture iff it has at most one
dot and at least one digit. -/
def floatOk (cs : List Char) : Bool :=
  cs.any isDigitCh && decide (cs.count '.' ≤ 1)

/-- Exact value of a decimal literal made of digits and at most one
dot. -/
def floatVal (cs : List Char) : ℚ :=
  let intPart := cs.takeWhile (fun c => !(c = '.' : Bool))
  let frac := (cs.dropWhile (fun c => !(c = '.' : Bool))).drop 1
  (digitsVal intPart : ℚ) + (digitsVal frac : ℚ) / (10 : ℚ) ^ frac.length

/-- Round-half-to-even at integer precision, as Python's `round`. -/
def roundHalfEven (q : ℚ) : ℤ :=
  let f := ⌊q⌋
  let frac := q - (f : ℚ)
  if frac < 1 / 2 then f
  else if (1 : ℚ) / 2 < frac then f + 1
  else if f % 2 = 0 then f else f + 1

/-- `round(x, 4)` on the exact-rational model of floats. -/
def round4 (q : ℚ) : ℚ := (roundHalfEven (q * 10000) : ℚ) / 10000

/-- `convert_to_kg` from `convert_product_weights`: extract value and
unit; `g`/`ml` divide by 1000; other units are taken as kilograms; the
result is rounded to 4 decimal places; no regex match yields `None`
(a missing value); a matched value that is not a float literal (for
example two dots) makes the uncaught `float(value)` call raise. -/
def convert_to_kg (s : String) : Except Unit (Option ℚ) :=
  match matchWeight s with
  | none => .ok none
  | some (v, u) =>
    if floatOk v then
      if u = ['g'] ∨ u = ['m', 'l'] then .ok (some (round4 (floatVal v / 1000)))
      else .ok (some (round4 (floatVal v)))
    else .error ()

/-- `convert_to_kg` on one cell: applied through `str(weight_str)`, so
it is total in its argument but can still raise on the float call. -/
def convertToKgCell (c : Cell) : Except Unit Cell :=
  match convert_to_kg (cellStr c) with
  | .ok none => .ok .na
  | .ok (some q) => .ok (.num q)
  | .error _ => .error ()

/-! ## Worded dates (`convert_worded_date`) -/

/-- Prefix match of `re.match(r'\d{4} \w+ \d{2}', s)`: four digits, a
space, a nonempty word-character run (its maximality forces the
following character to be the literal space), a space, two digits. -/
def wordedMatch (cs : List Char) : Bool :=
  match cs with
  | a :: b :: c :: d :: sp :: rest =>
    isDigitCh a && isDigitCh b && isDigitCh c && isDigitCh d &&
      decide (sp = ' ') &&
      (let w := (rest.takeWhile isWordCh).length
       decide (1 ≤ w) &&
         match rest.drop w with
         | sp2 :: d1 :: d2 :: _ =>
           decide (sp2 = ' ') && isDigitCh d1 && isDigitCh d2
         | _ => false)
  | _ => false

/-- Python `str.split()` with no separator: split on whitespace runs,
dropping empty fields.  Written with explicit fuel so that closed
instances evaluate inside the kernel. -/
def wsTokensF : Nat → List Char → List (List Char)
  | 0, _ => []
  | _, [] => []
  | Nat.succ n, c :: cs =>
    if isSpaceCh c then wsTokensF n cs
    else (c :: cs.takeWhile (fun d => !isSpaceCh d)) ::
      wsTokensF n (cs.dropWhile (fun d => !isSpaceCh d))

def wsTokens (cs : List Char) : List (List Char) := wsTokensF cs.length cs

/-- `convert_worded_date` from `clean_user_data`: when the (prefix)
pattern matches, rebuild `f"{year}-{month}-{day}"` from the first three
whitespace-separated fields (a successful match guarantees at least
three fields, so the `getD` defaults are unreachable); otherwise return
the value unchanged. -/
def convert_worded_date (s : String) : String :=
  if wordedMatch s.toList then
    let parts := wsTokens s.toList
    ⟨parts.getD 0 [] ++ '-' :: parts.getD 1 [] ++ '-' :: parts.getD 2 []⟩
  else s

/-- `apply(convert_worded_date)` on one cell: `re.match` raises
`TypeError` on a non-string argument. -/
def convertWordedCell (c : Cell) : Except Unit Cell :=
  match c with
  | .str s => .ok (.str (convert_worded_date s))
  | _ => .error ()

/-! ## Phone numbers, addresses, card numbers, continents -/

/-- `re.sub(r'^[0+]', '', s)` on a list of characters. -/
def stripLeadZeroPlus : List Char → List Char
  | '0' :: rest => rest
  | '+' :: rest => rest
  | l => l

/-- `clean_phone_number` from `clean_user_data`: keep only digits and
`x`, strip one leading `0` or `+` (the `+` branch is unreachable after
the first substitution), then drop the first `x` and everything after
it. -/
def clean_phone_number (s : String) : String :=
  let s1 := s.toList.filter (fun c => isDigitCh c || decide (c = 'x'))
  ⟨(stripLeadZeroPlus s1).takeWhile (fun c => !(c = 'x' : Bool))⟩

/-- `apply(clean_phone_number)` on one cell: `re.sub` raises `TypeError`
on a non-string argument. -/
def cleanPhoneCell (c : Cell) : Except Unit Cell :=
  match c with
  | .str s => .ok (.str (clean_phone_number s))
  | _ => .error ()

/-- `col.str.replace('\n', ' ')`: newline to space; the `.str` accessor
maps non-strings to NaN. -/
def newlineToSpace (s : String) : String :=
  ⟨s.toList.map (fun c => if c = '\n' then ' ' else c)⟩

/-- `col.str.replace('ee', '')`: remove every (left-to-right,
non-overlapping) occurrence of the substring `ee`. -/
def removeEE : List Char → List Char
  | 'e' :: 'e' :: rest => removeEE rest
  | c :: rest => c :: removeEE rest
  | [] => []

/-- Cell form of a pandas `.str` method: non-strings become NaN. -/
def strAccessor (f : String → String) (c : Cell) : Cell :=
  match c with
  | .str s => .str (f s)
  | _ => .na

/-- `validate_card_number`: `re.match(r'^\d{12,19}$', str(card_num))` is
truthy (12 to 19 digits, with `$` also accepting one trailing
newline). -/
def validate_card_number (c : Cell) : Bool :=
  anchoredMatch
    (fun l => decide (12 ≤ l.length ∧ l.length ≤ 19) && l.all isDigitCh)
    (cellStr c)

/-- `col.astype(str).str.replace(',', '', regex=True)` on one cell. -/
def stripCommasCell (c : Cell) : Cell :=
  .str ⟨(cellStr c).toList.filter (fun ch => !(ch = ',' : Bool))⟩

/-! ## Date parsing and rendering in the user cleaner -/

/-- `strftime('%Y-%m-%d')` of a date. -/
def fmtDateYMD (y m d : Nat) : String :=
  ⟨pad4 y ++ '-' :: pad2 m ++ '-' :: pad2 d⟩

/-- `pd.to_datetime(col, errors='coerce')` on one cell.  The flexible
pandas date parser is an external collaborator: it is abstracted as a
function `f` from strings to optional calendar dates (`none` meaning
coercion to NaT); non-string cells coerce to NaT as well. -/
def toDatetimeCell (f : String → Option (Nat × Nat × Nat)) (c : Cell) : Cell :=
  match c with
  | .str s =>
    match f s with
    | some (y, m, d) => .date y m d
    | none => .na
  | _ => .na

/-- `col.dt.strftime('%Y-%m-%d')` on one cell: dates render as strings,
NaT renders as NaN. -/
def strftimeCell (c : Cell) : Cell :=
  match c with
  | .date y m d => .str (fmtDateYMD y m d)
  | _ => .na

/-! ## The six entity cleaners (`DataCleaning`) -/

/-- `DataCleaning.clean_user_data`.  `toDt` abstracts the pandas
`to_datetime` parser; `nowYear` is the ambient clock every cleaner runs
under (this cleaner does not read it). -/
def clean_user_data (toDt : String → Option (Nat × Nat × Nat)) (nowYear : Nat)
    (t : Table) : Except Unit Table := do
  let t1 := t.replaceNullDropna
  let t2 ← t1.mapColE "join_date" convertWordedCell
  let t3 ← t2.mapColE "date_of_birth" convertWordedCell
  let t4 ← t3.mapCol "date_of_birth" (toDatetimeCell toDt)
  let t5 ← t4.mapCol "join_date" (toDatetimeCell toDt)
  let t6 ← t5.mapCol "date_of_birth" strftimeCell
  let t7 ← t6.mapCol "join_date" strftimeCell
  let t8 := t7.rvFilter
  let t9 ← t8.mapColE "phone_number" cleanPhoneCell
  let t10 ← t9.mapCol "address" (strAccessor newlineToSpace)
  return t10

/-- `DataCleaning.clean_card_data` (note: this cleaner applies no
corrupted-token row-validity filter). -/
def clean_card_data (nowYear : Nat) (t : Table) : Except Unit Table := do
  let t1 := t.replaceNullDropna
  let t2 ← t1.filterColE "date_payment_confirmed" isValidDateCell
  let cn ← t2.getColCells "card_number"
  let t3 := t2.addOrSetCol "is_valid_card_number"
    (cn.map (fun c => .boolean (validate_card_number c)))
  let t4 ← t3.filterColBool "is_valid_card_number"
  let t5 ← t4.dropColStrict "is_valid_card_number"
  return t5

/-- `DataCleaning.clean_store_data`. -/
def clean_store_data (nowYear : Nat) (t : Table) : Except Unit Table := do
  let latVals ← t.getColCells "latitude"
  let t1 := t.addOrSetCol "lat" latVals
  let t2 ← t1.dropColStrict "latitude"
  let t3 := t2.renameCol "lat" "latitude"
  let t4 := t3.replaceNullDropna
  let t5 ← t4.filterColE "opening_date" isValidDateCell
  let t6 := t5.rvFilter
  let t7 ← t6.mapCol "address" (strAccessor newlineToSpace)
  let t8 ← t7.mapCol "continent" (strAccessor (fun s => ⟨removeEE s.toList⟩))
  return t8

/-- `DataCleaning.convert_product_weights` (the `.copy()` is modelled by
purity: the argument table is not mutated). -/
def convert_product_weights (t : Table) : Except Unit Table :=
  t.mapColE "weight" convertToKgCell

/-- `DataCleaning.clean_products_data` (`self.data.columns[0]` raises
`IndexError` on a table with no columns). -/
def clean_products_data (nowYear : Nat) (t : Table) : Except Unit Table := do
  let c0 ← (match t.cols.head? with
    | some c => Except.ok c
    | none => Except.error ())
  let t1 := t.renameCol c0 "index"
  let t2 := t1.replaceNullDropna
  let t3 ← t2.filterColE "date_added" isValidDateCell
  let t4 := t3.rvFilter
  return t4

/-- `DataCleaning.clean_orders_data` (note: this cleaner performs no
NULL-sentinel replacement or dropna). -/
def clean_orders_data (nowYear : Nat) (t : Table) : Except Unit Table := do
  let t1 := t.dropColsIgnore ["first_name", "last_name", "1"]
  let cn ← t1.getColCells "card_number"
  let t2 := t1.addOrSetCol "card_number" (cn.map stripCommasCell)
  let cn2 ← t2.getColCells "card_number"
  let t3 := t2.addOrSetCol "is_valid_card_number"
    (cn2.map (fun c => .boolean (validate_card_number c)))
  let t4 ← t3.filterColBool "is_valid_card_number"
  let t5 ← t4.dropColStrict "is_valid_card_number"
  let t6 := t5.rvFilter
  return t6

/-- `DataCleaning.clean_date_events_data`.  `nowYear` is
`dt.datetime.now().year`, read from the ambient clock at run time. -/
def clean_date_events_data (nowYear : Nat) (t : Table) : Except Unit Table := do
  let t1 := t.replaceNullDropna
  let t2 := t1.rvFilter
  let t3 ← t2.mapCol "timestamp" toTimeCell
  let t4 ← t3.filterColVal "month" stripIntCell (fun v => decide (1 ≤ v ∧ v ≤ 12))
  let t5 ← t4.filterColE "year" isNumericCell
  let t6 ← t5.filterColE "day" isNumericCell
  let t7 ← t6.filterColVal "day" intCell (fun v => decide (1 ≤ v ∧ v ≤ 31))
  let t8 ← t7.filterColVal "year" intCell
    (fun v => decide (1900 ≤ v ∧ v ≤ (nowYear : Int)))
  return t8

/-! ## Extraction and the product lane (`data_extraction.py`, `main.py`) -/

/-- `DataExtractor._extract_csv_from_s3`: any exception while fetching
or parsing the object yields `None` (after printing), not an empty
table.  The S3 interaction itself is abstracted as its outcome. -/
def extract_csv_from_s3 (response : Except Unit Table) : Option Table :=
  match response with
  | .ok t => some t
  | .error _ => none

/-- `DataHandlingMain.extract_and_upload_product_data` up to the load
call: when the extractor yields `None`, the first DataFrame operation
of the weight-conversion step (`products_df.copy()` on `None`) raises
`AttributeError` and the lane aborts. -/
def extract_and_upload_product_data (nowYear : Nat)
    (response : Except Unit Table) : Except Unit Table :=
  match extract_csv_from_s3 response with
  | none => .error ()
  | some t =>
    match convert_product_weights t with
    | .error _ => .error ()
    | .ok t1 => clean_products_data nowYear t1

/-! ## Decidability of closed pipeline results -/

instance instDecidableEqExceptT {ε α : Type} [DecidableEq ε] [DecidableEq α] :
    DecidableEq (Except ε α)
  | .ok a, .ok b =>
    decidable_of_iff (a = b) ⟨fun h => by rw [h], fun h => by injection h⟩
  | .error a, .error b =>
    decidable_of_iff (a = b) ⟨fun h => by rw [h], fun h => by injection h⟩
  | .ok _, .error _ => .isFalse (fun h => Except.noConfusion h)
  | .error _, .ok _ => .isFalse (fun h => Except.noConfusion h)

/-! ## Specification predicates and concrete instances -/

/-- No cell of the table equals the `"NULL"` sentinel string. -/
def noNullB (t : Table) : Bool :=
  t.rows.all (fun r => r.all (fun c => !(c == Cell.str "NULL")))

/-- No row of the table contains a corrupted-token cell. -/
def noTokenB (t : Table) : Bool := t.rows.all (fun r => !contains_pattern r)

/-- The month cell parses (after stripping) to an integer in [1,12]. -/
def monthCellOk (c : Cell) : Bool :=
  match stripIntCell c with
  | .ok v => decide (1 ≤ v ∧ v ≤ 12)
  | .error _ => false

/-- A raw card table whose `expiry_date` holds a corrupted token. -/
def cardTokenTbl : Table :=
  { cols := ["card_number", "expiry_date", "date_payment_confirmed"]
    rows := [[.str "123456789012", .str "A123456789", .str "2020-01-01"]] }

/-- A raw user table with the spec's end-to-end phone example. -/
def userPhoneTbl : Table :=
  { cols := ["user_uuid", "date_of_birth", "join_date", "phone_number", "address"]
    rows := [[.str "abc-def", .str "x1", .str "x2", .str "+44.0121x99", .str "addr"]] }

/-- A raw orders table with a `"NULL"` sentinel cell and a valid card
number. -/
def ordersNullTbl : Table :=
  { cols := ["date_uuid", "card_number"]
    rows := [[.str "NULL", .str "123456789012"]] }

/-- A raw calendar-event table with a single row dated in 2024. -/
def dateEventsYearTbl : Table :=
  { cols := ["timestamp", "month", "year", "day"]
    rows := [[.str "12:30:45", .str "5", .str "2024", .str "10"]] }

/-- A raw calendar-event table whose month cell is the word `March`. -/
def dateEventsMonthTbl : Table :=
  { cols := ["timestamp", "month", "year", "day"]
    rows := [[.str "00:00:00", .str "March", .str "2000", .str "5"]] }

/-- A raw calendar-event table that cleans successfully. -/
def dateEventsOkTbl : Table :=
  { cols := ["timestamp", "month", "year", "day"]
    rows := [[.str "12:30:45", .str "5", .str "2004", .str "10"],
             [.str "NULL", .str "13", .str "1800", .str "40"]] }

/-- A raw card table that already contains a column named
`is_valid_card_number`. -/
def cardMarkerTbl : Table :=
  { cols := ["card_number", "date_payment_confirmed", "is_valid_card_number"]
    rows := [[.str "123456789012", .str "2020-01-01", .str "ok"]] }

/-- A raw card table (no marker-name collision) with one valid row, one
sentinel row and one short card number. -/
def cardOkTbl : Table :=
  { cols := ["card_number", "date_payment_confirmed"]
    rows := [[.str "123456789012", .str "2020-01-01"],
             [.str "NULL", .str "2020-01-01"],
             [.str "12345", .str "2020-01-01"]] }

/-- A raw products table (post weight conversion happens in the lane)
with one clean row and one corrupted-token row. -/
def productsTbl : Table :=
  { cols := ["idx", "product_code", "weight", "date_added"]
    rows := [[.str "0", .str "pc-1", .str "100 g", .str "2020-01-01"],
             [.str "1", .str "B123456789", .str "2 kg", .str "2020-01-01"]] }

/-- A raw orders table with a comma-separated card number. -/
def ordersOkTbl : Table :=
  { cols := ["date_uuid", "first_name", "card_number"]
    rows := [[.str "du-1", .str "Bob", .str "1234,5678,9012"]] }

/-! # Theorems -/

/-! ## Generic lemmas about the table primitives -/

theorem maskFilter_sublist (l : List α) (m : List Bool) :
    List.Sublist (maskFilter l m) l := by
  induction l generalizing m with
  | nil => simp [maskFilter]
  | cons a l ih =>
    cases m with
    | nil => simp [maskFilter]
    | cons b m =>
      cases b with
      | true => simpa [maskFilter] using (ih m).cons₂ a
      | false => simpa [maskFilter] using (ih m).cons a

theorem mem_maskFilter {l : List α} {m : List Bool} {x : α}
    (h : x ∈ maskFilter l m) : x ∈ l :=
  (maskFilter_sublist l m).subset h

theorem maskFilter_cons_true (a : α) (l : List α) (m : List Bool) :
    maskFilter (a :: l) (true :: m) = a :: maskFilter l m := rfl

theorem maskFilter_cons_false (a : α) (l : List α) (m : List Bool) :
    maskFilter (a :: l) (false :: m) = maskFilter l m := rfl

theorem exceptMapM_cons_ok {f : α → Except Unit β} {a : α} {l : List α}
    {vs : List β} (h : exceptMapM f (a :: l) = .ok vs) :
    ∃ b bs, f a = .ok b ∧ exceptMapM f l = .ok bs ∧ vs = b :: bs := by
  unfold exceptMapM at h
  split at h
  · exact Except.noConfusion h
  · rename_i b hfa
    split at h
    · exact Except.noConfusion h
    · rename_i bs hrec
      injection h with h
      exact ⟨b, bs, hfa, hrec, h.symm⟩

theorem maskFilter_mapM_mem {f : α → Except Unit β} {g : γ → α} {p : β → Bool} :
    ∀ {l : List γ} {vs : List β}, exceptMapM f (l.map g) = .ok vs →
      ∀ x ∈ maskFilter l (vs.map p), ∃ v, f (g x) = .ok v ∧ p v = true := by
  intro l
  induction l with
  | nil => intro vs h x hx; simp [maskFilter] at hx
  | cons a l ih =>
    intro vs h x hx
    rw [List.map_cons] at h
    obtain ⟨b, bs, hfa, hrec, hvs⟩ := exceptMapM_cons_ok h
    subst hvs
    rw [List.map_cons] at hx
    cases hb : p b with
    | true =>
      rw [hb, maskFilter_cons_true, List.mem_cons] at hx
      cases hx with
      | inl hxa => subst hxa; exact ⟨b, hfa, hb⟩
      | inr hx => exact ih hrec x hx
    | false =>
      rw [hb, maskFilter_cons_false] at hx
      exact ih hrec x hx

theorem filter_map_sublist {g : α → α} {p : α → Bool}
    (hfix : ∀ x, p (g x) = true → g x = x) :
    ∀ l : List α, List.Sublist ((l.map g).filter p) l := by
  intro l
  induction l with
  | nil => simp
  | cons a l ih =>
    rw [List.map_cons, List.filter_cons]
    by_cases hp : p (g a) = true
    · rw [if_pos hp, hfix a hp]; exact ih.cons₂ a
    · rw [if_neg (by simpa using hp)]; exact ih.cons a

theorem sentinelToNa_ne_null (c : Cell) : sentinelToNa c ≠ Cell.str "NULL" := by
  unfold sentinelToNa
  by_cases h : c = Cell.str "NULL"
  · rw [if_pos h]; intro hc; exact Cell.noConfusion hc
  · rw [if_neg h]; exact h

theorem sentinel_row_fix (r : List Cell)
    (h : rowHasNa (r.map sentinelToNa) = false) : r.map sentinelToNa = r := by
  induction r with
  | nil => rfl
  | cons c r ih =>
    unfold rowHasNa at h
    rw [List.map_cons, List.any_cons, Bool.or_eq_false_iff] at h
    obtain ⟨h1, h2⟩ := h
    have hc : sentinelToNa c = c := by
      unfold sentinelToNa
      by_cases hcc : c = Cell.str "NULL"
      · subst hcc
        rw [sentinelToNa] at h1
        simp at h1
      · rw [if_neg hcc]
    rw [List.map_cons, hc, ih h2]

theorem replaceNullDropna_rows_sublist (t : Table) :
    List.Sublist t.replaceNullDropna.rows t.rows := by
  apply filter_map_sublist
  intro r hp
  apply sentinel_row_fix
  simpa using hp

theorem replaceNullDropna_noNull (t : Table) :
    ∀ r ∈ t.replaceNullDropna.rows, ∀ c ∈ r, c ≠ Cell.str "NULL" := by
  intro r hr c hc
  unfold Table.replaceNullDropna at hr
  have hr' := List.mem_of_mem_filter hr
  obtain ⟨r0, _, rfl⟩ := List.mem_map.mp hr'
  obtain ⟨c0, _, rfl⟩ := List.mem_map.mp hc
  exact sentinelToNa_ne_null c0

theorem rvFilter_noToken (t : Table) :
    ∀ r ∈ t.rvFilter.rows, contains_pattern r = false := by
  intro r hr
  have := List.of_mem_filter hr
  simpa using this

theorem mapCol_inv {t t' : Table} {cname : String} {f : Cell → Cell}
    (h : Table.mapCol t cname f = .ok t') :
    t'.cols = t.cols ∧
      ∃ i, t'.rows = t.rows.map (fun r => r.set i (f (rowGet r i))) := by
  unfold Table.mapCol at h
  split at h
  · exact Except.noConfusion h
  · rename_i i hidx
    injection h with h
    subst h
    exact ⟨rfl, i, rfl⟩

theorem mapColE_inv {t t' : Table} {cname : String} {f : Cell → Except Unit Cell}
    (h : Table.mapColE t cname f = .ok t') :
    t'.cols = t.cols ∧
      ∃ i vs, exceptMapM (fun r => f (rowGet r i)) t.rows = .ok vs ∧
        t'.rows = List.zipWith (fun r v => r.set i v) t.rows vs := by
  unfold Table.mapColE at h
  split at h
  · exact Except.noConfusion h
  · rename_i i hidx
    split at h
    · exact Except.noConfusion h
    · rename_i vs hm
      injection h with h
      subst h
      exact ⟨rfl, i, vs, hm, rfl⟩

theorem getColCells_inv {t : Table} {cname : String} {cells : List Cell}
    (h : Table.getColCells t cname = .ok cells) :
    ∃ i, t.colIdx cname = some i ∧ cells = t.rows.map (fun r => rowGet r i) := by
  unfold Table.getColCells at h
  split at h
  · exact Except.noConfusion h
  · rename_i i hidx
    injection h with h
    exact ⟨i, hidx, h.symm⟩

theorem filterColVal_inv {t t' : Table} {cname : String} {β : Type}
    {f : Cell → Except Unit β} {p : β → Bool}
    (h : Table.filterColVal t cname f p = .ok t') :
    t'.cols = t.cols ∧
      ∃ i vs, t.colIdx cname = some i ∧
        exceptMapM f (t.rows.map (fun r => rowGet r i)) = .ok vs ∧
        t'.rows = maskFilter t.rows (vs.map p) := by
  unfold Table.filterColVal at h
  split at h
  · exact Except.noConfusion h
  · rename_i cells hg
    obtain ⟨i, hidx, rfl⟩ := getColCells_inv hg
    split at h
    · exact Except.noConfusion h
    · rename_i vs hm
      injection h with h
      subst h
      exact ⟨rfl, i, vs, hidx, hm, rfl⟩

theorem filterColVal_rows_sublist {t t' : Table} {cname : String} {β : Type}
    {f : Cell → Except Unit β} {p : β → Bool}
    (h : Table.filterColVal t cname f p = .ok t') :
    List.Sublist t'.rows t.rows := by
  obtain ⟨-, i, vs, -, -, hrows⟩ := filterColVal_inv h
  rw [hrows]
  exact maskFilter_sublist _ _

theorem dropColStrict_inv {t t' : Table} {name : String}
    (h : Table.dropColStrict t name = .ok t') :
    ∃ i, t.colIdx name = some i ∧ t'.cols = t.cols.eraseIdx i ∧
      t'.rows = t.rows.map (fun r => r.eraseIdx i) := by
  unfold Table.dropColStrict at h
  split at h
  · exact Except.noConfusion h
  · rename_i i hidx
    injection h with h
    subst h
    exact ⟨i, hidx, rfl, rfl⟩

theorem addOrSetCol_map_rows (t : Table) (name : String) (g : List Cell → Cell) :
    (t.addOrSetCol name (t.rows.map g)).rows =
      match t.colIdx name with
      | some i => t.rows.map (fun r => r.set i (g r))
      | none => t.rows.map (fun r => r ++ [g r]) := by
  unfold Table.addOrSetCol
  cases t.colIdx name with
  | some i => simp [List.zipWith_map_right, List.zipWith_same]
  | none => simp [List.zipWith_map_right, List.zipWith_same]

theorem rowGet_mem_or_na (r : List Cell) (i : Nat) :
    rowGet r i ∈ r ∨ rowGet r i = Cell.na := by
  unfold rowGet
  cases h : r[i]? with
  | none => right; simp [List.getD, h]
  | some c =>
    left
    have h2 : r.getD i Cell.na = c := by simp [List.getD, h]
    rw [h2]
    obtain ⟨hlt, he⟩ := List.getElem?_eq_some.mp h
    exact he ▸ List.getElem_mem hlt

theorem findIdxA_not_mem {p : α → Bool} :
    ∀ {l : List α}, (∀ x ∈ l, p x = false) → findIdxA p l = none := by
  intro l
  induction l with
  | nil => intro _; rfl
  | cons a l ih =>
    intro h
    unfold findIdxA
    rw [if_neg (by simp [h a (List.mem_cons_self a l)]), ih (fun x hx => h x (List.mem_cons_of_mem a hx))]
    rfl

theorem findIdxA_append_last {p : α → Bool} {a : α} :
    ∀ {l : List α}, (∀ x ∈ l, p x = false) → p a = true →
      findIdxA p (l ++ [a]) = some l.length := by
  intro l
  induction l with
  | nil => intro _ ha; simp [findIdxA, ha]
  | cons b l ih =>
    intro h ha
    rw [List.cons_append]
    unfold findIdxA
    rw [if_neg (by simp [h b (List.mem_cons_self b l)]),
      ih (fun x hx => h x (List.mem_cons_of_mem b hx)) ha]
    rfl

theorem eraseIdx_append_last (l : List α) (a : α) :
    (l ++ [a]).eraseIdx l.length = l := by
  induction l with
  | nil => rfl
  | cons b l ih => rw [List.cons_append, List.length_cons, List.eraseIdx_cons_succ, ih]

/-! ## Lemmas about the corrupted-token pattern on rendered cells -/

theorem digCh_isDigit (n : Nat) : isDigitCh (digCh n) = true := by
  unfold digCh; split <;> decide

theorem digCh_ne_newline (n : Nat) : digCh n ≠ '\n' := by
  unfold digCh; split <;> decide

theorem corruptedToken_mk (l : List Char) :
    corruptedToken ⟨l⟩ =
      (tokChars l ||
        match l.getLast? with
        | some c => decide (c = '\n') && tokChars l.dropLast
        | none => false) := rfl

theorem corruptedToken_time (h m s : Nat) :
    corruptedToken (cellStr (Cell.time h m s)) = false := by
  show corruptedToken ⟨pad2 h ++ ':' :: pad2 m ++ ':' :: pad2 s⟩ = false
  unfold pad2
  rw [corruptedToken_mk]
  simp only [List.cons_append, List.nil_append]
  have h1 : tokChars [digCh (h / 10), digCh h, ':', digCh (m / 10), digCh m, ':',
      digCh (s / 10), digCh s] = false := by
    simp only [tokChars]
    simp
  rw [h1]
  simp [decide_eq_false (digCh_ne_newline s)]

theorem corruptedToken_fmtDate (y m d : Nat) :
    corruptedToken (fmtDateYMD y m d) = false := by
  unfold fmtDateYMD pad4 pad2
  rw [corruptedToken_mk]
  simp only [List.cons_append, List.nil_append]
  have h1 : tokChars [digCh (y / 1000), digCh (y / 100), digCh (y / 10), digCh y, '-',
      digCh (m / 10), digCh m, '-', digCh (d / 10), digCh d] = false := by
    simp only [tokChars]
    have h2 : [digCh (y / 100), digCh (y / 10), digCh y, '-', digCh (m / 10), digCh m,
        '-', digCh (d / 10), digCh d].all isAlnumCh = false := by
      rw [List.all_eq_false]
      exact ⟨'-', by simp, by decide⟩
    rw [h2]
    simp
  rw [h1]
  simp [decide_eq_false (digCh_ne_newline d)]

theorem corruptedToken_toTimeCell (c : Cell) :
    corruptedToken (cellStr (toTimeCell c)) = false := by
  cases c with
  | str s =>
    cases hp : parseTimeHMS s with
    | none => simp [toTimeCell, hp]; decide
    | some v =>
      obtain ⟨h, m, sec⟩ := v
      simp only [toTimeCell, hp]
      exact corruptedToken_time h m sec
  | na => decide
  | time a b c2 => change corruptedToken (cellStr Cell.na) = false; decide
  | date a b c2 => change corruptedToken (cellStr Cell.na) = false; decide
  | boolean b => change corruptedToken (cellStr Cell.na) = false; decide
  | num q => change corruptedToken (cellStr Cell.na) = false; decide

theorem contains_pattern_set_false {r : List Cell} {i : Nat} {v : Cell}
    (hr : contains_pattern r = false) (hv : corruptedToken (cellStr v) = false) :
    contains_pattern (r.set i v) = false := by
  unfold contains_pattern at hr ⊢
  rw [List.any_eq_false] at hr ⊢
  intro x hx
  rcases List.mem_or_eq_of_mem_set hx with hmem | rfl
  · exact hr x hmem
  · simp [hv]

/-! ## Lemmas about the NULL sentinel on transformed cells -/

theorem str_with_dash_ne (l1 l2 : List Char) :
    (⟨l1 ++ '-' :: l2⟩ : String) ≠ "NULL" := by
  intro h
  have hd := congrArg String.data h
  have hm : '-' ∈ ("NULL" : String).data := by
    rw [← hd]
    exact List.mem_append_right _ (List.mem_cons_self _ _)
  revert hm
  decide

theorem fmtDate_ne_null (y m d : Nat) : fmtDateYMD y m d ≠ "NULL" := by
  unfold fmtDateYMD pad4 pad2
  exact str_with_dash_ne _ _

theorem convert_worded_ne_null {s : String} (hs : s ≠ "NULL") :
    convert_worded_date s ≠ "NULL" := by
  unfold convert_worded_date
  split
  · exact str_with_dash_ne _ _
  · exact hs

theorem mem_stripLeadZeroPlus {c : Char} {l : List Char}
    (h : c ∈ stripLeadZeroPlus l) : c ∈ l := by
  unfold stripLeadZeroPlus at h
  split at h
  · exact List.mem_cons_of_mem _ h
  · exact List.mem_cons_of_mem _ h
  · exact h

theorem clean_phone_chars {s : String} {c : Char}
    (hc : c ∈ (clean_phone_number s).data) : isDigitCh c = true ∨ c = 'x' := by
  unfold clean_phone_number at hc
  have h1 : c ∈ stripLeadZeroPlus
      (s.toList.filter (fun ch => isDigitCh ch || decide (ch = 'x'))) :=
    (List.takeWhile_sublist _).subset hc
  have h2 := mem_stripLeadZeroPlus h1
  have h3 := List.of_mem_filter h2
  simpa using h3

theorem clean_phone_ne_null (s : String) : clean_phone_number s ≠ "NULL" := by
  intro h
  have hN : 'N' ∈ (clean_phone_number s).data := by rw [h]; decide
  rcases clean_phone_chars hN with h1 | h1
  · revert h1; decide
  · exact absurd h1 (by decide)

theorem list_len4 {l : List α} (h : l.length = 4) :
    ∃ a b c d, l = [a, b, c, d] := by
  rcases l with _ | ⟨a, _ | ⟨b, _ | ⟨c, _ | ⟨d, _ | ⟨e, l⟩⟩⟩⟩⟩ <;>
    simp_all <;> omega

theorem if_nl_char {a t : Char} (ht : t ≠ ' ')
    (h : (if a = '\n' then ' ' else a) = t) : a = t := by
  by_cases ha : a = '\n'
  · rw [if_pos ha] at h; exact absurd h.symm ht
  · rwa [if_neg ha] at h

theorem newlineToSpace_eq_null {s : String} (h : newlineToSpace s = "NULL") :
    s = "NULL" := by
  cases s with
  | mk data =>
    have hd : data.map (fun c => if c = '\n' then ' ' else c) = ['N', 'U', 'L', 'L'] := by
      have h2 := congrArg String.data h
      exact h2
    have hlen : data.length = 4 := by
      have h3 := congrArg List.length hd
      simpa using h3
    obtain ⟨a, b, c, d, rfl⟩ := list_len4 hlen
    simp only [List.map] at hd
    obtain ⟨h1, h2, h3, h4⟩ : _ ∧ _ ∧ _ ∧ _ := by simpa using hd
    rw [if_nl_char (by decide) h1, if_nl_char (by decide) h2,
      if_nl_char (by decide) h3, if_nl_char (by decide) h4]

theorem strAccessor_nl_ne_null {c : Cell} (hc : c ≠ Cell.str "NULL") :
    strAccessor newlineToSpace c ≠ Cell.str "NULL" := by
  unfold strAccessor
  split
  · rename_i s
    intro h
    injection h with h
    exact hc (by rw [newlineToSpace_eq_null h])
  · intro h; exact Cell.noConfusion h

theorem toDatetimeCell_ne_null (f : String → Option (Nat × Nat × Nat)) (c : Cell) :
    toDatetimeCell f c ≠ Cell.str "NULL" := by
  unfold toDatetimeCell
  split
  · rename_i s
    split
    · intro h; exact Cell.noConfusion h
    · intro h; exact Cell.noConfusion h
  · intro h; exact Cell.noConfusion h

theorem strftimeCell_ne_null (c : Cell) : strftimeCell c ≠ Cell.str "NULL" := by
  unfold strftimeCell
  split
  · rename_i y m d
    intro h
    injection h with h
    exact fmtDate_ne_null y m d h
  · intro h; exact Cell.noConfusion h

/-! ## Preservation of the no-NULL invariant by the table primitives -/

theorem zipWith_set_mem {g : List Cell → Except Unit Cell} {i : Nat} :
    ∀ {rows : List (List Cell)} {vs : List Cell}, exceptMapM g rows = .ok vs →
      ∀ r' ∈ List.zipWith (fun r v => r.set i v) rows vs,
        ∃ r ∈ rows, ∃ v, g r = .ok v ∧ r' = r.set i v := by
  intro rows
  induction rows with
  | nil => intro vs h r' hr'; simp at hr'
  | cons a l ih =>
    intro vs h r' hr'
    obtain ⟨b, bs, hfa, hrec, rfl⟩ := exceptMapM_cons_ok h
    rw [List.zipWith_cons_cons, List.mem_cons] at hr'
    cases hr' with
    | inl he => exact ⟨a, List.mem_cons_self a l, b, hfa, he⟩
    | inr hmem =>
      obtain ⟨r, hr, v, hgv, he⟩ := ih hrec r' hmem
      exact ⟨r, List.mem_cons_of_mem a hr, v, hgv, he⟩

theorem mapColE_pres_noNull {t t' : Table} {cname : String}
    {f : Cell → Except Unit Cell} (h : Table.mapColE t cname f = .ok t')
    (hf : ∀ c c', c ≠ Cell.str "NULL" → f c = .ok c' → c' ≠ Cell.str "NULL")
    (ht : ∀ r ∈ t.rows, ∀ c ∈ r, c ≠ Cell.str "NULL") :
    ∀ r ∈ t'.rows, ∀ c ∈ r, c ≠ Cell.str "NULL" := by
  obtain ⟨-, i, vs, hm, hrows⟩ := mapColE_inv h
  intro r' hr' c hc
  rw [hrows] at hr'
  obtain ⟨r, hrmem, v, hgv, rfl⟩ := zipWith_set_mem hm r' hr'
  rcases List.mem_or_eq_of_mem_set hc with hmem | rfl
  · exact ht r hrmem c hmem
  · have hne : rowGet r i ≠ Cell.str "NULL" := by
      rcases rowGet_mem_or_na r i with hmem2 | hna
      · exact ht r hrmem _ hmem2
      · rw [hna]; intro hcon; exact Cell.noConfusion hcon
    exact hf _ _ hne hgv

theorem mapCol_pres_noNull {t t' : Table} {cname : String} {f : Cell → Cell}
    (h : Table.mapCol t cname f = .ok t')
    (hf : ∀ c, c ≠ Cell.str "NULL" → f c ≠ Cell.str "NULL")
    (ht : ∀ r ∈ t.rows, ∀ c ∈ r, c ≠ Cell.str "NULL") :
    ∀ r ∈ t'.rows, ∀ c ∈ r, c ≠ Cell.str "NULL" := by
  obtain ⟨-, i, hrows⟩ := mapCol_inv h
  intro r' hr' c hc
  rw [hrows] at hr'
  obtain ⟨r, hrmem, rfl⟩ := List.mem_map.mp hr'
  rcases List.mem_or_eq_of_mem_set hc with hmem | rfl
  · exact ht r hrmem c hmem
  · have hne : rowGet r i ≠ Cell.str "NULL" := by
      rcases rowGet_mem_or_na r i with hmem2 | hna
      · exact ht r hrmem _ hmem2
      · rw [hna]; intro hcon; exact Cell.noConfusion hcon
    exact hf _ hne

theorem subset_pres_noNull {rows rows' : List (List Cell)}
    (hsub : ∀ r ∈ rows', r ∈ rows)
    (ht : ∀ r ∈ rows, ∀ c ∈ r, c ≠ Cell.str "NULL") :
    ∀ r ∈ rows', ∀ c ∈ r, c ≠ Cell.str "NULL" :=
  fun r hr => ht r (hsub r hr)

theorem addOrSet_bool_pres_noNull (t : Table) (name : String)
    (g : List Cell → Bool)
    (ht : ∀ r ∈ t.rows, ∀ c ∈ r, c ≠ Cell.str "NULL") :
    ∀ r ∈ (t.addOrSetCol name (t.rows.map (fun r => Cell.boolean (g r)))).rows,
      ∀ c ∈ r, c ≠ Cell.str "NULL" := by
  intro r' hr' c hc
  rw [addOrSetCol_map_rows] at hr'
  revert hr'
  split
  · intro hr'
    obtain ⟨r, hrmem, rfl⟩ := List.mem_map.mp hr'
    rcases List.mem_or_eq_of_mem_set hc with hmem | rfl
    · exact ht r hrmem c hmem
    · intro hcon; exact Cell.noConfusion hcon
  · intro hr'
    obtain ⟨r, hrmem, rfl⟩ := List.mem_map.mp hr'
    rcases List.mem_append.mp hc with hmem | hmem
    · exact ht r hrmem c hmem
    · rw [List.mem_singleton.mp hmem]
      intro hcon; exact Cell.noConfusion hcon

theorem eraseIdx_rows_pres_noNull {rows : List (List Cell)} {i : Nat}
    (ht : ∀ r ∈ rows, ∀ c ∈ r, c ≠ Cell.str "NULL") :
    ∀ r ∈ rows.map (fun r => r.eraseIdx i), ∀ c ∈ r, c ≠ Cell.str "NULL" := by
  intro r' hr' c hc
  obtain ⟨r, hrmem, rfl⟩ := List.mem_map.mp hr'
  exact ht r hrmem c ((List.eraseIdx_sublist r i).subset hc)

/-! ## Rounding on exact rationals -/

theorem roundHalfEven_int (z : ℤ) : roundHalfEven (z : ℚ) = z := by
  unfold roundHalfEven
  rw [Int.floor_intCast]
  rw [if_pos]
  norm_num

theorem round4_int (z : ℤ) : round4 (z : ℚ) = z := by
  unfold round4
  have h : (z : ℚ) * 10000 = ((z * 10000 : ℤ) : ℚ) := by push_cast; ring
  rw [h, roundHalfEven_int]
  push_cast
  field_simp

/-! ## Claim C9 -/

/-- Claim C9 (confirmed): for every table, applying the Row-Validity
Filter (keep only rows with no corrupted-token cell) twice yields
exactly the same table as applying it once. -/
theorem rvFilter_idempotent (t : Table) : t.rvFilter.rvFilter = t.rvFilter := by
  unfold Table.rvFilter
  congr 1
  rw [List.filter_filter]
  simp only [Bool.and_self]

/-! ## Claim C3 -/

/-- Claim C3 (corrected): when the source fetch fails, the S3 extractor
returns a null marker (`None`), not an empty table, and the product lane
then aborts with an error (the weight-conversion step's first DataFrame
operation raises on `None`) instead of running the cleaner on zero rows
and completing normally. -/
theorem product_lane_aborts_on_source_failure (nowYear : Nat) :
    extract_csv_from_s3 (Except.error ()) = none ∧
      extract_and_upload_product_data nowYear (Except.error ()) =
        Except.error () :=
  ⟨rfl, rfl⟩

/-- Claim C3 counterexample: with an unavailable source the product lane
does not complete normally. -/
theorem product_lane_not_ok_cex :
    (extract_and_upload_product_data 2025 (Except.error ())).isOk = false := rfl

/-! ## Claim C7 -/

/-- Claim C7 (corrected): the user, card, store, product and order
cleaners are deterministic and independent of the ambient clock (the
run-year parameter), but the calendar-event cleaner is not — see the
counterexample.  The user cleaner is deterministic relative to its
date-parsing collaborator `toDt`. -/
theorem cleaners_clock_independent (toDt : String → Option (Nat × Nat × Nat))
    (y1 y2 : Nat) (t : Table) :
    clean_user_data toDt y1 t = clean_user_data toDt y2 t ∧
    clean_card_data y1 t = clean_card_data y2 t ∧
    clean_store_data y1 t = clean_store_data y2 t ∧
    clean_products_data y1 t = clean_products_data y2 t ∧
    clean_orders_data y1 t = clean_orders_data y2 t :=
  ⟨rfl, rfl, rfl, rfl, rfl⟩

/-- Claim C7 counterexample: the calendar-event cleaner reads the clock
(`datetime.now().year`): the same raw table cleans to different results
in run years 2023 and 2024. -/
theorem clean_date_events_clock_dependent_cex :
    clean_date_events_data 2023 dateEventsYearTbl ≠
      clean_date_events_data 2024 dateEventsYearTbl := by decide

/-! ## Counterexamples for claims C1, C2, C4, C5, C6, C8, C10 -/

/-- Claim C1 counterexample: the card cleaner applies no corrupted-token
filter; it keeps a row whose `expiry_date` cell is the corrupted token
`A123456789`. -/
theorem clean_card_retains_token_cex :
    clean_card_data 0 cardTokenTbl = Except.ok cardTokenTbl ∧
      noTokenB cardTokenTbl = false := by
  constructor <;> decide

/-- Claim C2 counterexample: on the bare numeric string `"123"` the
weight conversion does not return 123; the regex hands the last digit to
the unit group and the result is 12. -/
theorem convert_to_kg_bare_numeric_cex :
    convert_to_kg "123" = Except.ok (some 12) ∧ (12 : ℚ) ≠ 123 := by
  constructor
  · have hm : matchWeight "123" = some (['1', '2'], ['3']) := rfl
    have hc : digitsVal ['1', '2'] = 12 := rfl
    have hd : digitsVal ([] : List Char) = 0 := rfl
    have hfv : floatVal ['1', '2'] = ((12 : ℤ) : ℚ) := by
      unfold floatVal
      show (digitsVal ['1', '2'] : ℚ) +
          (digitsVal ([] : List Char) : ℚ) / 10 ^ ([] : List Char).length =
          ((12 : ℤ) : ℚ)
      rw [hc, hd]
      norm_num
    unfold convert_to_kg
    rw [hm]
    show (if floatOk ['1', '2'] = true then
        if ['3'] = ['g'] ∨ ['3'] = ['m', 'l'] then
          Except.ok (some (round4 (floatVal ['1', '2'] / 1000)))
        else Except.ok (some (round4 (floatVal ['1', '2'])))
      else Except.error ()) = Except.ok (some 12)
    rw [if_pos (by decide), if_neg (by decide)]
    rw [hfv, round4_int]
    have h12 : ((12 : ℤ) : ℚ) = 12 := by norm_num
    rw [h12]
  · norm_num

/-- Claim C4 counterexample: cleaning the spec's end-to-end user row
leaves `phone_number = "440121"`, not the claimed `"4401219"` (the
extension-stripping step removes the digits after `x`). -/
theorem clean_user_phone_cex :
    clean_user_data (fun _ => none) 0 userPhoneTbl =
      Except.ok { cols := userPhoneTbl.cols
                  rows := [[.str "abc-def", .na, .na, .str "440121", .str "addr"]] } ∧
      ("440121" : String) ≠ "4401219" := by
  constructor <;> decide

/-- Claim C5 counterexample: the orders cleaner has no NULL-sentinel
drop; a row with a `"NULL"` cell and a valid card number is retained
with the `"NULL"` cell intact. -/
theorem clean_orders_retains_null_cex :
    clean_orders_data 0 ordersNullTbl = Except.ok ordersNullTbl ∧
      noNullB ordersNullTbl = false := by
  constructor <;> decide

/-- Claim C6 counterexample: the worded-date regex is a prefix match, so
`"2020 October 05 x"` — not of the claimed shape — is still rewritten
(and its tail is discarded) instead of being returned unmodified. -/
theorem convert_worded_date_prefix_cex :
    convert_worded_date "2020 October 05 x" = "2020-October-05" ∧
      ("2020-October-05" : String) ≠ "2020 October 05 x" := by
  constructor <;> decide

/-- Claim C8 counterexample: a month cell `"March"` does not parse as an
integer, and the calendar-event cleaner raises (`astype(int)`) instead
of dropping the row. -/
theorem clean_date_events_month_error_cex :
    clean_date_events_data 2025 dateEventsMonthTbl = Except.error () := by decide

/-- Claim C10 counterexample: on a raw card table that already has a
column named `is_valid_card_number`, the cleaner overwrites and then
deletes that column, so the output column set differs from the input
column set. -/
theorem clean_card_marker_collision_cex :
    clean_card_data 0 cardMarkerTbl =
      Except.ok { cols := ["card_number", "date_payment_confirmed"]
                  rows := [[.str "123456789012", .str "2020-01-01"]] } ∧
      (["card_number", "date_payment_confirmed"] : List String) ≠
        cardMarkerTbl.cols := by
  constructor <;> decide

/-! ## Claim C1 -/

theorem noTokenB_of (t : Table) (h : ∀ r ∈ t.rows, contains_pattern r = false) :
    noTokenB t = true := by
  unfold noTokenB
  rw [List.all_eq_true]
  intro r hr
  simp [h r hr]

theorem subset_pres_noToken {rows rows' : List (List Cell)}
    (hsub : ∀ r ∈ rows', r ∈ rows)
    (ht : ∀ r ∈ rows, contains_pattern r = false) :
    ∀ r ∈ rows', contains_pattern r = false :=
  fun r hr => ht r (hsub r hr)

theorem mapCol_pres_noToken {t t' : Table} {cname : String} {f : Cell → Cell}
    (h : Table.mapCol t cname f = .ok t')
    (hf : ∀ c, corruptedToken (cellStr (f c)) = false)
    (ht : ∀ r ∈ t.rows, contains_pattern r = false) :
    ∀ r ∈ t'.rows, contains_pattern r = false := by
  obtain ⟨-, i, hrows⟩ := mapCol_inv h
  intro r' hr'
  rw [hrows] at hr'
  obtain ⟨r, hrmem, rfl⟩ := List.mem_map.mp hr'
  exact contains_pattern_set_false (ht r hrmem) (hf _)

/-- Claim C1 (corrected): the cleaned outputs of the product, order and
calendar-event cleaners contain no corrupted-token cell in any row.  The
claim fails for the card cleaner, which applies no such filter (see the
counterexample); the user and store cleaners run the filter mid-pipeline
and their later per-field rewrites (phone canonicalisation, continent
repair) can reintroduce matching cells, so the invariant as stated does
not hold for them either. -/
theorem noToken_invariant_products_orders_dates
    (ny : Nat) (tP tP' tO tO' tD tD' : Table)
    (hP : clean_products_data ny tP = .ok tP')
    (hO : clean_orders_data ny tO = .ok tO')
    (hD : clean_date_events_data ny tD = .ok tD') :
    noTokenB tP' = true ∧ noTokenB tO' = true ∧ noTokenB tD' = true := by
  refine ⟨?_, ?_, ?_⟩
  · unfold clean_products_data at hP
    simp only [bind, Except.bind, pure, Except.pure] at hP
    split at hP
    · exact Except.noConfusion hP
    · split at hP
      · exact Except.noConfusion hP
      · injection hP with hP
        subst hP
        exact noTokenB_of _ (rvFilter_noToken _)
  · unfold clean_orders_data at hO
    simp only [bind, Except.bind, pure, Except.pure] at hO
    split at hO
    · exact Except.noConfusion hO
    · split at hO
      · exact Except.noConfusion hO
      · split at hO
        · exact Except.noConfusion hO
        · split at hO
          · exact Except.noConfusion hO
          · injection hO with hO
            subst hO
            exact noTokenB_of _ (rvFilter_noToken _)
  · unfold clean_date_events_data at hD
    simp only [bind, Except.bind, pure, Except.pure] at hD
    split at hD
    · exact Except.noConfusion hD
    · rename_i t3 h3
      split at hD
      · exact Except.noConfusion hD
      · rename_i t4 h4
        split at hD
        · exact Except.noConfusion hD
        · rename_i t5 h5
          split at hD
          · exact Except.noConfusion hD
          · rename_i t6 h6
            split at hD
            · exact Except.noConfusion hD
            · rename_i t7 h7
              split at hD
              · exact Except.noConfusion hD
              · rename_i t8 h8
                injection hD with hD
                subst hD
                have p2 := rvFilter_noToken (Table.replaceNullDropna tD)
                have p3 := mapCol_pres_noToken h3 corruptedToken_toTimeCell p2
                have h4' : Table.filterColVal t3 "month" stripIntCell
                    (fun v => decide (1 ≤ v ∧ v ≤ 12)) = .ok t4 := h4
                have p4 := subset_pres_noToken
                  (fun r hr => (filterColVal_rows_sublist h4').subset hr) p3
                have h5' : Table.filterColVal t4 "year" isNumericCell
                    (fun b => b) = .ok t5 := h5
                have p5 := subset_pres_noToken
                  (fun r hr => (filterColVal_rows_sublist h5').subset hr) p4
                have h6' : Table.filterColVal t5 "day" isNumericCell
                    (fun b => b) = .ok t6 := h6
                have p6 := subset_pres_noToken
                  (fun r hr => (filterColVal_rows_sublist h6').subset hr) p5
                have h7' : Table.filterColVal t6 "day" intCell
                    (fun v => decide (1 ≤ v ∧ v ≤ 31)) = .ok t7 := h7
                have p7 := subset_pres_noToken
                  (fun r hr => (filterColVal_rows_sublist h7').subset hr) p6
                have h8' : Table.filterColVal t7 "year" intCell
                    (fun v => decide (1900 ≤ v ∧ v ≤ (ny : Int))) = .ok t8 := h8
                have p8 := subset_pres_noToken
                  (fun r hr => (filterColVal_rows_sublist h8').subset hr) p7
                exact noTokenB_of _ p8

/-- Claim C1 witness: the invariant evaluated on concrete product, order
and calendar-event tables. -/
theorem noToken_invariant_witness :
    noTokenB { cols := ["index", "product_code", "weight", "date_added"]
               rows := [[.str "0", .str "pc-1", .str "100 g", .str "2020-01-01"]] } = true ∧
    noTokenB { cols := ["date_uuid", "card_number"]
               rows := [[.str "du-1", .str "123456789012"]] } = true ∧
    noTokenB { cols := ["timestamp", "month", "year", "day"]
               rows := [[.time 12 30 45, .str "5", .str "2004", .str "10"]] } = true :=
  noToken_invariant_products_orders_dates 2025 productsTbl _ ordersOkTbl _
    dateEventsOkTbl _ (by decide) (by decide) (by decide)

/-! ## Claim C5 -/

theorem noNullB_of (t : Table)
    (h : ∀ r ∈ t.rows, ∀ c ∈ r, c ≠ Cell.str "NULL") : noNullB t = true := by
  unfold noNullB
  rw [List.all_eq_true]
  intro r hr
  rw [List.all_eq_true]
  intro c hc
  simp [h r hr c hc]

theorem convertWordedCell_ne_null {c c' : Cell} (hc : c ≠ Cell.str "NULL")
    (h : convertWordedCell c = .ok c') : c' ≠ Cell.str "NULL" := by
  unfold convertWordedCell at h
  split at h
  · rename_i s
    injection h with h
    subst h
    intro hcon
    injection hcon with hcon
    have hs : s ≠ "NULL" := fun hs => hc (by rw [hs])
    exact convert_worded_ne_null hs hcon
  · exact Except.noConfusion h

theorem cleanPhoneCell_ne_null {c c' : Cell} (hc : c ≠ Cell.str "NULL")
    (h : cleanPhoneCell c = .ok c') : c' ≠ Cell.str "NULL" := by
  unfold cleanPhoneCell at h
  split at h
  · rename_i s
    injection h with h
    subst h
    intro hcon
    injection hcon with hcon
    exact clean_phone_ne_null s hcon
  · exact Except.noConfusion h

theorem toTimeCell_ne_null (c : Cell) : toTimeCell c ≠ Cell.str "NULL" := by
  unfold toTimeCell
  split
  · rename_i s
    split
    · intro h; exact Cell.noConfusion h
    · intro h; exact Cell.noConfusion h
  · intro h; exact Cell.noConfusion h

/-- Claim C5 (corrected): the cleaned outputs of the user, card, product
and calendar-event cleaners contain no cell equal to the sentinel string
`"NULL"` (such rows are dropped, and no later step reintroduces the
string).  The claim fails for the orders cleaner, which performs no
NULL-sentinel drop at all (see the counterexample); the store cleaner's
continent repair can even fabricate the string (`"NeeULL"` becomes
`"NULL"`), so it is excluded as well. -/
theorem noNull_invariant_user_card_products_dates
    (toDt : String → Option (Nat × Nat × Nat)) (ny : Nat)
    (tU tU' tC tC' tP tP' tD tD' : Table)
    (hU : clean_user_data toDt ny tU = .ok tU')
    (hC : clean_card_data ny tC = .ok tC')
    (hP : clean_products_data ny tP = .ok tP')
    (hD : clean_date_events_data ny tD = .ok tD') :
    noNullB tU' = true ∧ noNullB tC' = true ∧ noNullB tP' = true ∧
      noNullB tD' = true := by
  refine ⟨?_, ?_, ?_, ?_⟩
  · -- user cleaner
    unfold clean_user_data at hU
    simp only [bind, Except.bind, pure, Except.pure] at hU
    split at hU
    · exact Except.noConfusion hU
    · rename_i t2 h2
      split at hU
      · exact Except.noConfusion hU
      · rename_i t3 h3
        split at hU
        · exact Except.noConfusion hU
        · rename_i t4 h4
          split at hU
          · exact Except.noConfusion hU
          · rename_i t5 h5
            split at hU
            · exact Except.noConfusion hU
            · rename_i t6 h6
              split at hU
              · exact Except.noConfusion hU
              · rename_i t7 h7
                split at hU
                · exact Except.noConfusion hU
                · rename_i t9 h9
                  split at hU
                  · exact Except.noConfusion hU
                  · rename_i t10 h10
                    injection hU with hU
                    subst hU
                    have p1 := replaceNullDropna_noNull tU
                    have p2 := mapColE_pres_noNull h2
                      (fun c c' => convertWordedCell_ne_null) p1
                    have p3 := mapColE_pres_noNull h3
                      (fun c c' => convertWordedCell_ne_null) p2
                    have p4 := mapCol_pres_noNull h4
                      (fun c _ => toDatetimeCell_ne_null toDt c) p3
                    have p5 := mapCol_pres_noNull h5
                      (fun c _ => toDatetimeCell_ne_null toDt c) p4
                    have p6 := mapCol_pres_noNull h6
                      (fun c _ => strftimeCell_ne_null c) p5
                    have p7 := mapCol_pres_noNull h7
                      (fun c _ => strftimeCell_ne_null c) p6
                    have p8 : ∀ r ∈ (Table.rvFilter t7).rows, ∀ c ∈ r,
                        c ≠ Cell.str "NULL" :=
                      subset_pres_noNull
                        (fun r hr => (List.filter_sublist t7.rows).subset hr) p7
                    have p9 := mapColE_pres_noNull h9
                      (fun c c' => cleanPhoneCell_ne_null) p8
                    have p10 := mapCol_pres_noNull h10
                      (fun c hc => strAccessor_nl_ne_null hc) p9
                    exact noNullB_of _ p10
  · -- card cleaner
    unfold clean_card_data at hC
    simp only [bind, Except.bind, pure, Except.pure] at hC
    split at hC
    · exact Except.noConfusion hC
    · rename_i t2 h2
      split at hC
      · exact Except.noConfusion hC
      · rename_i cn hcn
        split at hC
        · exact Except.noConfusion hC
        · rename_i t4 h4
          split at hC
          · exact Except.noConfusion hC
          · rename_i t5 h5
            injection hC with hC
            subst hC
            have p1 := replaceNullDropna_noNull tC
            have h2' : Table.filterColVal (Table.replaceNullDropna tC)
                "date_payment_confirmed" isValidDateCell (fun b => b) = .ok t2 := h2
            have p2 := subset_pres_noNull
              (fun r hr => (filterColVal_rows_sublist h2').subset hr) p1
            obtain ⟨i, hidx, rfl⟩ := getColCells_inv hcn
            have p3 : ∀ r ∈ (Table.addOrSetCol t2 "is_valid_card_number"
                ((t2.rows.map (fun r => rowGet r i)).map
                  (fun c => Cell.boolean (validate_card_number c)))).rows,
                ∀ c ∈ r, c ≠ Cell.str "NULL" := by
              rw [List.map_map]
              exact addOrSet_bool_pres_noNull t2 "is_valid_card_number"
                (fun r => validate_card_number (rowGet r i)) p2
            have h4' : Table.filterColVal (Table.addOrSetCol t2 "is_valid_card_number"
                ((t2.rows.map (fun r => rowGet r i)).map
                  (fun c => Cell.boolean (validate_card_number c))))
                "is_valid_card_number"
                (fun cl => match cl with
                  | Cell.boolean b => Except.ok b
                  | _ => Except.error ()) (fun b => b) = .ok t4 := h4
            have p4 := subset_pres_noNull
              (fun r hr => (filterColVal_rows_sublist h4').subset hr) p3
            obtain ⟨j, hjdx, hcols5, hrows5⟩ := dropColStrict_inv h5
            have p5 : ∀ r ∈ t5.rows, ∀ c ∈ r, c ≠ Cell.str "NULL" := by
              rw [hrows5]
              exact eraseIdx_rows_pres_noNull p4
            exact noNullB_of _ p5
  · -- products cleaner
    unfold clean_products_data at hP
    simp only [bind, Except.bind, pure, Except.pure] at hP
    split at hP
    · exact Except.noConfusion hP
    · rename_i c0 hc0
      split at hP
      · exact Except.noConfusion hP
      · rename_i t3 h3
        injection hP with hP
        subst hP
        have h3' : Table.filterColVal (Table.replaceNullDropna
            (Table.renameCol tP c0 "index")) "date_added" isValidDateCell
            (fun b => b) = .ok t3 := h3
        have p3 := subset_pres_noNull
          (fun r hr => (filterColVal_rows_sublist h3').subset hr)
          (replaceNullDropna_noNull (Table.renameCol tP c0 "index"))
        have p4 : ∀ r ∈ (Table.rvFilter t3).rows, ∀ c ∈ r,
            c ≠ Cell.str "NULL" :=
          subset_pres_noNull
            (fun r hr => (List.filter_sublist t3.rows).subset hr) p3
        exact noNullB_of _ p4
  · -- calendar-event cleaner
    unfold clean_date_events_data at hD
    simp only [bind, Except.bind, pure, Except.pure] at hD
    split at hD
    · exact Except.noConfusion hD
    · rename_i t3 h3
      split at hD
      · exact Except.noConfusion hD
      · rename_i t4 h4
        split at hD
        · exact Except.noConfusion hD
        · rename_i t5 h5
          split at hD
          · exact Except.noConfusion hD
          · rename_i t6 h6
            split at hD
            · exact Except.noConfusion hD
            · rename_i t7 h7
              split at hD
              · exact Except.noConfusion hD
              · rename_i t8 h8
                injection hD with hD
                subst hD
                have p1 := replaceNullDropna_noNull tD
                have p2 : ∀ r ∈ (Table.rvFilter
                    (Table.replaceNullDropna tD)).rows, ∀ c ∈ r,
                    c ≠ Cell.str "NULL" :=
                  subset_pres_noNull
                    (fun r hr => (List.filter_sublist _).subset hr) p1
                have p3 := mapCol_pres_noNull h3
                  (fun c _ => toTimeCell_ne_null c) p2
                have h4' : Table.filterColVal t3 "month" stripIntCell
                    (fun v => decide (1 ≤ v ∧ v ≤ 12)) = .ok t4 := h4
                have p4 := subset_pres_noNull
                  (fun r hr => (filterColVal_rows_sublist h4').subset hr) p3
                have h5' : Table.filterColVal t4 "year" isNumericCell
                    (fun b => b) = .ok t5 := h5
                have p5 := subset_pres_noNull
                  (fun r hr => (filterColVal_rows_sublist h5').subset hr) p4
                have h6' : Table.filterColVal t5 "day" isNumericCell
                    (fun b => b) = .ok t6 := h6
                have p6 := subset_pres_noNull
                  (fun r hr => (filterColVal_rows_sublist h6').subset hr) p5
                have h7' : Table.filterColVal t6 "day" intCell
                    (fun v => decide (1 ≤ v ∧ v ≤ 31)) = .ok t7 := h7
                have p7 := subset_pres_noNull
                  (fun r hr => (filterColVal_rows_sublist h7').subset hr) p6
                have h8' : Table.filterColVal t7 "year" intCell
                    (fun v => decide (1900 ≤ v ∧ v ≤ (ny : Int))) = .ok t8 := h8
                have p8 := subset_pres_noNull
                  (fun r hr => (filterColVal_rows_sublist h8').subset hr) p7
                exact noNullB_of _ p8

/-- Claim C5 witness: the invariant evaluated on the cleaned outputs of
concrete user, card, product and calendar-event tables. -/
theorem noNull_invariant_witness :
    noNullB { cols := ["user_uuid", "date_of_birth", "join_date",
                       "phone_number", "address"]
              rows := [[.str "abc-def", .na, .na, .str "440121",
                        .str "addr"]] } = true ∧
    noNullB { cols := ["card_number", "date_payment_confirmed"]
              rows := [[.str "123456789012", .str "2020-01-01"]] } = true ∧
    noNullB { cols := ["index", "product_code", "weight", "date_added"]
              rows := [[.str "0", .str "pc-1", .str "100 g",
                        .str "2020-01-01"]] } = true ∧
    noNullB { cols := ["timestamp", "month", "year", "day"]
              rows := [[.time 12 30 45, .str "5", .str "2004",
                        .str "10"]] } = true :=
  noNull_invariant_user_card_products_dates (fun _ => none) 2025
    userPhoneTbl _ cardOkTbl _ productsTbl _ dateEventsOkTbl _
    (by decide) (by decide) (by decide) (by decide)

/-! ## Claim C8 -/

/-- Claim C8 (corrected): every row retained by the calendar-event
cleaner has a month cell that, after trimming whitespace, parses as an
integer in [1,12]; but a month cell that does not parse as an integer
makes the cleaner raise an error (`astype(int)`) rather than being
dropped, so the cleaner does not return normally on every raw table
(see the counterexample). -/
theorem clean_date_events_month_range (ny : Nat) (t t' : Table) (i : Nat)
    (h : clean_date_events_data ny t = .ok t')
    (hi : t'.colIdx "month" = some i) :
    t'.rows.all (fun r => monthCellOk (rowGet r i)) = true := by
  unfold clean_date_events_data at h
  simp only [bind, Except.bind, pure, Except.pure] at h
  split at h
  · exact Except.noConfusion h
  · rename_i t3 h3
    split at h
    · exact Except.noConfusion h
    · rename_i t4 h4
      split at h
      · exact Except.noConfusion h
      · rename_i t5 h5
        split at h
        · exact Except.noConfusion h
        · rename_i t6 h6
          split at h
          · exact Except.noConfusion h
          · rename_i t7 h7
            split at h
            · exact Except.noConfusion h
            · rename_i t8 h8
              injection h with h
              subst h
              have h4' : Table.filterColVal t3 "month" stripIntCell
                  (fun v => decide (1 ≤ v ∧ v ≤ 12)) = .ok t4 := h4
              obtain ⟨hc4, i4, vs4, hidx4, hmm4, hrows4⟩ := filterColVal_inv h4'
              have h5' : Table.filterColVal t4 "year" isNumericCell
                  (fun b => b) = .ok t5 := h5
              have h6' : Table.filterColVal t5 "day" isNumericCell
                  (fun b => b) = .ok t6 := h6
              have h7' : Table.filterColVal t6 "day" intCell
                  (fun v => decide (1 ≤ v ∧ v ≤ 31)) = .ok t7 := h7
              have h8' : Table.filterColVal t7 "year" intCell
                  (fun v => decide (1900 ≤ v ∧ v ≤ (ny : Int))) = .ok t8 := h8
              have hc5 := (filterColVal_inv h5').1
              have hc6 := (filterColVal_inv h6').1
              have hc7 := (filterColVal_inv h7').1
              have hc8 := (filterColVal_inv h8').1
              have hcols : t8.cols = t3.cols := by rw [hc8, hc7, hc6, hc5, hc4]
              have hit3 : t3.colIdx "month" = some i := by
                unfold Table.colIdx at hi ⊢
                rw [hcols] at hi
                exact hi
              have hieq : i4 = i := by
                rw [hit3] at hidx4
                injection hidx4 with hidx4
                exact hidx4.symm
              subst hieq
              have p4 : ∀ r ∈ t4.rows, monthCellOk (rowGet r i4) = true := by
                intro r hr
                rw [hrows4] at hr
                obtain ⟨v, hv, hpv⟩ := maskFilter_mapM_mem hmm4 r hr
                unfold monthCellOk
                rw [hv]
                exact hpv
              have hsub : ∀ r ∈ t8.rows, r ∈ t4.rows := fun r hr =>
                (filterColVal_rows_sublist h5').subset
                  ((filterColVal_rows_sublist h6').subset
                    ((filterColVal_rows_sublist h7').subset
                      ((filterColVal_rows_sublist h8').subset hr)))
              rw [List.all_eq_true]
              intro r hr
              exact p4 r (hsub r hr)

/-- Claim C8 witness: the month guarantee evaluated on the cleaned
output of a concrete calendar-event table. -/
theorem clean_date_events_month_range_witness :
    ({ cols := ["timestamp", "month", "year", "day"]
       rows := [[Cell.time 12 30 45, .str "5", .str "2004", .str "10"]] } :
      Table).rows.all (fun r => monthCellOk (rowGet r 1)) = true :=
  clean_date_events_month_range 2025 dateEventsOkTbl _ 1 (by decide) (by decide)

/-! ## Claim C10 -/

theorem colIdx_eq_none_of_not_mem {t : Table} {name : String}
    (h : ¬ name ∈ t.cols) : t.colIdx name = none := by
  unfold Table.colIdx
  apply findIdxA_not_mem
  intro x hx
  rw [beq_eq_false_iff_ne]
  intro he
  subst he
  exact h hx

theorem addOrSetCol_not_mem {t : Table} {name : String} (vals : List Cell)
    (h : t.colIdx name = none) :
    (t.addOrSetCol name vals).cols = t.cols ++ [name] ∧
      (t.addOrSetCol name vals).rows =
        List.zipWith (fun r v => r ++ [v]) t.rows vals := by
  unfold Table.addOrSetCol
  rw [h]
  exact ⟨rfl, rfl⟩

/-- Claim C10 (corrected): provided the raw card table is rectangular
and carries no column already named `is_valid_card_number`, the card
cleaner's output has exactly the input's columns (the temporary marker
column is removed before return) and its rows form a sublist of the
input rows, every retained cell unchanged.  If the input does have a
column of that name, the cleaner overwrites and deletes it, so the
column set changes (see the counterexample). -/
theorem clean_card_frame (ny : Nat) (t t' : Table)
    (h : clean_card_data ny t = .ok t') (hwf : t.WF)
    (hm : ¬ "is_valid_card_number" ∈ t.cols) :
    t'.cols = t.cols ∧ List.Sublist t'.rows t.rows := by
  unfold clean_card_data at h
  simp only [bind, Except.bind, pure, Except.pure] at h
  split at h
  · exact Except.noConfusion h
  · rename_i t2 h2
    split at h
    · exact Except.noConfusion h
    · rename_i cn hcn
      split at h
      · exact Except.noConfusion h
      · rename_i t4 h4
        split at h
        · exact Except.noConfusion h
        · rename_i t5 h5
          injection h with h
          subst h
          have h2' : Table.filterColVal (Table.replaceNullDropna t)
              "date_payment_confirmed" isValidDateCell (fun b => b) = .ok t2 := h2
          have hc2 : t2.cols = t.cols := (filterColVal_inv h2').1
          have hrows2 : List.Sublist t2.rows t.rows :=
            (filterColVal_rows_sublist h2').trans (replaceNullDropna_rows_sublist t)
          obtain ⟨i, hidx, rfl⟩ := getColCells_inv hcn
          have hm2 : Table.colIdx t2 "is_valid_card_number" = none := by
            apply colIdx_eq_none_of_not_mem
            rw [hc2]
            exact hm
          obtain ⟨hcols3, hrows3⟩ := addOrSetCol_not_mem
            ((t2.rows.map (fun r => rowGet r i)).map
              (fun c => Cell.boolean (validate_card_number c))) hm2
          have hrows3' : (Table.addOrSetCol t2 "is_valid_card_number"
              ((t2.rows.map (fun r => rowGet r i)).map
                (fun c => Cell.boolean (validate_card_number c)))).rows =
              t2.rows.map (fun r =>
                r ++ [Cell.boolean (validate_card_number (rowGet r i))]) := by
            rw [hrows3, List.map_map, List.zipWith_map_right, List.zipWith_same]
            rfl
          have h4' : Table.filterColVal (Table.addOrSetCol t2 "is_valid_card_number"
              ((t2.rows.map (fun r => rowGet r i)).map
                (fun c => Cell.boolean (validate_card_number c))))
              "is_valid_card_number"
              (fun cl => match cl with
                | Cell.boolean b => Except.ok b
                | _ => Except.error ()) (fun b => b) = .ok t4 := h4
          have hc4 : t4.cols = t2.cols ++ ["is_valid_card_number"] :=
            (filterColVal_inv h4').1.trans hcols3
          have hrows4 : List.Sublist t4.rows
              (t2.rows.map (fun r =>
                r ++ [Cell.boolean (validate_card_number (rowGet r i))])) := by
            rw [← hrows3']
            exact filterColVal_rows_sublist h4'
          obtain ⟨j, hjdx, hcols5, hrows5⟩ := dropColStrict_inv h5
          have hjval : Table.colIdx t4 "is_valid_card_number" =
              some t2.cols.length := by
            unfold Table.colIdx
            rw [hc4]
            apply findIdxA_append_last
            · intro x hx
              rw [beq_eq_false_iff_ne]
              intro he
              subst he
              exact hm (hc2 ▸ hx)
            · simp
          have hj : j = t2.cols.length := by
            rw [hjval] at hjdx
            injection hjdx with hjdx
            exact hjdx.symm
          subst hj
          constructor
          · rw [hcols5, hc4, eraseIdx_append_last, hc2]
          · rw [hrows5]
            have hsub1 : List.Sublist
                (t4.rows.map (fun r => r.eraseIdx t2.cols.length))
                ((t2.rows.map (fun r =>
                  r ++ [Cell.boolean (validate_card_number (rowGet r i))])).map
                    (fun r => r.eraseIdx t2.cols.length)) :=
              hrows4.map _
            have heq : (t2.rows.map (fun r =>
                r ++ [Cell.boolean (validate_card_number (rowGet r i))])).map
                  (fun r => r.eraseIdx t2.cols.length) = t2.rows := by
              rw [List.map_map]
              have : ∀ r ∈ t2.rows,
                  ((fun r => r.eraseIdx t2.cols.length) ∘ (fun r =>
                    r ++ [Cell.boolean (validate_card_number (rowGet r i))])) r =
                    id r := by
                intro r hr
                have hlen : r.length = t2.cols.length := by
                  rw [hc2]
                  exact hwf r (hrows2.subset hr)
                simp only [Function.comp, id]
                rw [← hlen]
                exact eraseIdx_append_last r _
              rw [List.map_congr_left this, List.map_id]
            rw [heq] at hsub1
            exact hsub1.trans hrows2

/-- Claim C10 witness: the frame property evaluated on a concrete raw
card table with three rows, one of which survives. -/
theorem clean_card_frame_witness :
    ({ cols := ["card_number", "date_payment_confirmed"]
       rows := [[Cell.str "123456789012", .str "2020-01-01"]] } : Table).cols =
        cardOkTbl.cols ∧
      List.Sublist ({ cols := ["card_number", "date_payment_confirmed"]
                      rows := [[Cell.str "123456789012",
                                .str "2020-01-01"]] } : Table).rows
        cardOkTbl.rows :=
  clean_card_frame 0 cardOkTbl _ (by decide)
    (by intro r hr; fin_cases hr <;> rfl) (by decide)

/-! ## Claim C4 -/

theorem corruptedToken_strftime (c : Cell) :
    corruptedToken (cellStr (strftimeCell c)) = false := by
  unfold strftimeCell
  split
  · rename_i y m d
    exact corruptedToken_fmtDate y m d
  · change corruptedToken (cellStr Cell.na) = false
    decide

/-- Claim C4 (corrected): for the spec's end-to-end raw user row (whose
`user_uuid` does not match the corrupted-token pattern), user cleaning —
for any pandas date parser and any run year — succeeds and leaves
`phone_number = "440121"`: digits and `x` are kept, no leading `0`/`+`
is present after filtering, and the `x` extension with everything after
it (here the digits `99`) is removed.  The claimed value `"4401219"` is
wrong (see the counterexample). -/
theorem clean_user_phone_canonical (toDt : String → Option (Nat × Nat × Nat))
    (ny : Nat) :
    ∃ t', clean_user_data toDt ny userPhoneTbl = .ok t' ∧
      t'.rows.map (fun r => rowGet r 3) = [Cell.str "440121"] := by
  have e1 : Table.replaceNullDropna userPhoneTbl = userPhoneTbl := by decide
  have e2 : Table.mapColE userPhoneTbl "join_date" convertWordedCell =
      .ok userPhoneTbl := by decide
  have e3 : Table.mapColE userPhoneTbl "date_of_birth" convertWordedCell =
      .ok userPhoneTbl := by decide
  have e4 : Table.mapCol userPhoneTbl "date_of_birth" (toDatetimeCell toDt) =
      .ok ⟨userPhoneTbl.cols,
        [[Cell.str "abc-def", toDatetimeCell toDt (Cell.str "x1"),
          Cell.str "x2", Cell.str "+44.0121x99", Cell.str "addr"]]⟩ := rfl
  have e5 : Table.mapCol (⟨userPhoneTbl.cols,
        [[Cell.str "abc-def", toDatetimeCell toDt (Cell.str "x1"),
          Cell.str "x2", Cell.str "+44.0121x99", Cell.str "addr"]]⟩ : Table)
      "join_date" (toDatetimeCell toDt) =
      .ok ⟨userPhoneTbl.cols,
        [[Cell.str "abc-def", toDatetimeCell toDt (Cell.str "x1"),
          toDatetimeCell toDt (Cell.str "x2"),
          Cell.str "+44.0121x99", Cell.str "addr"]]⟩ := rfl
  have e6 : Table.mapCol (⟨userPhoneTbl.cols,
        [[Cell.str "abc-def", toDatetimeCell toDt (Cell.str "x1"),
          toDatetimeCell toDt (Cell.str "x2"),
          Cell.str "+44.0121x99", Cell.str "addr"]]⟩ : Table)
      "date_of_birth" strftimeCell =
      .ok ⟨userPhoneTbl.cols,
        [[Cell.str "abc-def", strftimeCell (toDatetimeCell toDt (Cell.str "x1")),
          toDatetimeCell toDt (Cell.str "x2"),
          Cell.str "+44.0121x99", Cell.str "addr"]]⟩ := rfl
  have e7 : Table.mapCol (⟨userPhoneTbl.cols,
        [[Cell.str "abc-def", strftimeCell (toDatetimeCell toDt (Cell.str "x1")),
          toDatetimeCell toDt (Cell.str "x2"),
          Cell.str "+44.0121x99", Cell.str "addr"]]⟩ : Table)
      "join_date" strftimeCell =
      .ok ⟨userPhoneTbl.cols,
        [[Cell.str "abc-def", strftimeCell (toDatetimeCell toDt (Cell.str "x1")),
          strftimeCell (toDatetimeCell toDt (Cell.str "x2")),
          Cell.str "+44.0121x99", Cell.str "addr"]]⟩ := rfl
  have hcp : contains_pattern
      [Cell.str "abc-def", strftimeCell (toDatetimeCell toDt (Cell.str "x1")),
       strftimeCell (toDatetimeCell toDt (Cell.str "x2")),
       Cell.str "+44.0121x99", Cell.str "addr"] = false := by
    unfold contains_pattern
    simp only [List.any_cons, List.any_nil, corruptedToken_strftime]
    decide
  have e8 : Table.rvFilter (⟨userPhoneTbl.cols,
        [[Cell.str "abc-def", strftimeCell (toDatetimeCell toDt (Cell.str "x1")),
          strftimeCell (toDatetimeCell toDt (Cell.str "x2")),
          Cell.str "+44.0121x99", Cell.str "addr"]]⟩ : Table) =
      ⟨userPhoneTbl.cols,
        [[Cell.str "abc-def", strftimeCell (toDatetimeCell toDt (Cell.str "x1")),
          strftimeCell (toDatetimeCell toDt (Cell.str "x2")),
          Cell.str "+44.0121x99", Cell.str "addr"]]⟩ := by
    unfold Table.rvFilter
    congr 1
    rw [List.filter_cons, if_pos (by simp [hcp])]
    rfl
  have e9 : Table.mapColE (⟨userPhoneTbl.cols,
        [[Cell.str "abc-def", strftimeCell (toDatetimeCell toDt (Cell.str "x1")),
          strftimeCell (toDatetimeCell toDt (Cell.str "x2")),
          Cell.str "+44.0121x99", Cell.str "addr"]]⟩ : Table)
      "phone_number" cleanPhoneCell =
      .ok ⟨userPhoneTbl.cols,
        [[Cell.str "abc-def", strftimeCell (toDatetimeCell toDt (Cell.str "x1")),
          strftimeCell (toDatetimeCell toDt (Cell.str "x2")),
          Cell.str "440121", Cell.str "addr"]]⟩ := rfl
  have e10 : Table.mapCol (⟨userPhoneTbl.cols,
        [[Cell.str "abc-def", strftimeCell (toDatetimeCell toDt (Cell.str "x1")),
          strftimeCell (toDatetimeCell toDt (Cell.str "x2")),
          Cell.str "440121", Cell.str "addr"]]⟩ : Table)
      "address" (strAccessor newlineToSpace) =
      .ok ⟨userPhoneTbl.cols,
        [[Cell.str "abc-def", strftimeCell (toDatetimeCell toDt (Cell.str "x1")),
          strftimeCell (toDatetimeCell toDt (Cell.str "x2")),
          Cell.str "440121", Cell.str "addr"]]⟩ := rfl
  refine ⟨⟨userPhoneTbl.cols,
    [[Cell.str "abc-def", strftimeCell (toDatetimeCell toDt (Cell.str "x1")),
      strftimeCell (toDatetimeCell toDt (Cell.str "x2")),
      Cell.str "440121", Cell.str "addr"]]⟩, ?_, ?_⟩
  · unfold clean_user_data
    simp only [bind, Except.bind, pure, Except.pure, e1, e2, e3, e4, e5, e6, e7,
      e8, e9, e10]
  · rfl

/-! ## Claim C2 -/

theorem takeWhile_eq_of_all {p : α → Bool} {l : List α}
    (h : ∀ x ∈ l, p x = true) : l.takeWhile p = l := by
  induction l with
  | nil => rfl
  | cons a l ih =>
    rw [List.takeWhile_cons, if_pos (h a (List.mem_cons_self a l)),
      ih (fun x hx => h x (List.mem_cons_of_mem a hx))]

theorem dropWhile_eq_nil_of_all {p : α → Bool} {l : List α}
    (h : ∀ x ∈ l, p x = true) : l.dropWhile p = [] := by
  induction l with
  | nil => rfl
  | cons a l ih =>
    rw [List.dropWhile_cons, if_pos (h a (List.mem_cons_self a l)),
      ih (fun x hx => h x (List.mem_cons_of_mem a hx))]

theorem takeWhile_append_stop {p : α → Bool} {l : List α}
    (hl : ∀ x ∈ l, p x = true) {c : α} (hc : p c = false) (r : List α) :
    (l ++ c :: r).takeWhile p = l ∧ (l ++ c :: r).dropWhile p = c :: r := by
  induction l with
  | nil =>
    constructor
    · rw [List.nil_append, List.takeWhile_cons, if_neg (by simp [hc])]
    · rw [List.nil_append, List.dropWhile_cons, if_neg (by simp [hc])]
  | cons a l ih =>
    have ha := hl a (List.mem_cons_self a l)
    obtain ⟨ih1, ih2⟩ := ih (fun x hx => hl x (List.mem_cons_of_mem a hx))
    constructor
    · rw [List.cons_append, List.takeWhile_cons, if_pos ha, ih1]
    · rw [List.cons_append, List.dropWhile_cons, if_pos ha, ih2]

theorem word_not_space {c : Char} (h : isWordCh c = true) :
    isSpaceCh c = false := by
  unfold isWordCh isAlnumCh isUpperCh isLowerCh isDigitCh at h
  unfold isSpaceCh
  simp only [Bool.or_eq_true, decide_eq_true_eq] at h
  simp only [decide_eq_false_iff_not]
  omega

theorem weightUnit_space_word (u : List Char) (hu1 : u ≠ [])
    (hu2 : ∀ c ∈ u, isWordCh c = true) :
    weightUnit (' ' :: u) = some u := by
  have hd : (' ' :: u).dropWhile isSpaceCh = u := by
    rw [List.dropWhile_cons, if_pos (by decide)]
    cases u with
    | nil => rfl
    | cons a l =>
      rw [List.dropWhile_cons, if_neg]
      simp [word_not_space (hu2 a (List.mem_cons_self a l))]
  have ht : u.takeWhile isWordCh = u := takeWhile_eq_of_all hu2
  show (if (((' ' :: u).dropWhile isSpaceCh).takeWhile isWordCh).isEmpty = true
      then none
      else some (((' ' :: u).dropWhile isSpaceCh).takeWhile isWordCh)) = some u
  rw [hd, ht, if_neg]
  cases u with
  | nil => exact absurd rfl hu1
  | cons a l => simp

theorem matchWeight_unit {n : String} (u : List Char) {s : String}
    (hn1 : n.toList ≠ []) (hn2 : ∀ c ∈ n.toList, isDigDotCh c = true)
    (hu1 : u ≠ []) (hu2 : ∀ c ∈ u, isWordCh c = true)
    (hs : s.toList = n.toList ++ ' ' :: u) :
    matchWeight s = some (n.toList, u) := by
  unfold matchWeight
  rw [hs]
  have htake : (n.toList ++ ' ' :: u).takeWhile isDigDotCh = n.toList :=
    (takeWhile_append_stop (p := isDigDotCh) hn2 (c := ' ') (by decide) u).1
  show weightLoop ((n.toList ++ ' ' :: u).takeWhile isDigDotCh).reverse
      ((n.toList ++ ' ' :: u).drop
        ((n.toList ++ ' ' :: u).takeWhile isDigDotCh).length) = some (n.toList, u)
  rw [htake, List.drop_left]
  obtain ⟨c, rev, hrev⟩ : ∃ c rev, n.toList.reverse = c :: rev := by
    cases hr : n.toList.reverse with
    | nil => exact absurd (List.reverse_eq_nil_iff.mp hr) hn1
    | cons c rev => exact ⟨c, rev, rfl⟩
  rw [hrev]
  simp only [weightLoop, weightUnit_space_word u hu1 hu2]
  rw [← hrev, List.reverse_reverse]

/-- Claim C2 (corrected): for a numeric string `n` (digits with at most
one dot), `"n g"` and `"n ml"` convert to `n/1000` rounded to 4 decimal
places and `"n kg"` converts to `n` rounded to 4 decimal places; a
string the extraction regex does not match at all becomes a missing
value.  The bare-numeric clause of the claim is wrong: the regex hands
the final digit of a bare numeral to the unit group (see the
counterexample), and a matched value that is not a float literal makes
the conversion raise rather than return missing. -/
theorem convert_to_kg_unit_cases (n s : String)
    (hn1 : n.toList ≠ []) (hn2 : ∀ c ∈ n.toList, isDigDotCh c = true)
    (hfok : floatOk n.toList = true) (hs : matchWeight s = none) :
    convert_to_kg (n ++ " g") = .ok (some (round4 (floatVal n.toList / 1000))) ∧
    convert_to_kg (n ++ " ml") = .ok (some (round4 (floatVal n.toList / 1000))) ∧
    convert_to_kg (n ++ " kg") = .ok (some (round4 (floatVal n.toList))) ∧
    convert_to_kg s = .ok none := by
  have hg : matchWeight (n ++ " g") = some (n.toList, ['g']) :=
    matchWeight_unit ['g'] hn1 hn2 (by decide) (by decide)
      (by show (n ++ " g").data = n.data ++ ' ' :: ['g']
          rw [String.data_append])
  have hml : matchWeight (n ++ " ml") = some (n.toList, ['m', 'l']) :=
    matchWeight_unit ['m', 'l'] hn1 hn2 (by decide) (by decide)
      (by show (n ++ " ml").data = n.data ++ ' ' :: ['m', 'l']
          rw [String.data_append])
  have hkg : matchWeight (n ++ " kg") = some (n.toList, ['k', 'g']) :=
    matchWeight_unit ['k', 'g'] hn1 hn2 (by decide) (by decide)
      (by show (n ++ " kg").data = n.data ++ ' ' :: ['k', 'g']
          rw [String.data_append])
  refine ⟨?_, ?_, ?_, ?_⟩
  · unfold convert_to_kg
    rw [hg]
    show (if floatOk n.toList = true then
        if ['g'] = ['g'] ∨ ['g'] = ['m', 'l'] then
          Except.ok (some (round4 (floatVal n.toList / 1000)))
        else Except.ok (some (round4 (floatVal n.toList)))
      else Except.error ()) = Except.ok (some (round4 (floatVal n.toList / 1000)))
    rw [if_pos hfok, if_pos (Or.inl rfl)]
  · unfold convert_to_kg
    rw [hml]
    show (if floatOk n.toList = true then
        if ['m', 'l'] = ['g'] ∨ ['m', 'l'] = ['m', 'l'] then
          Except.ok (some (round4 (floatVal n.toList / 1000)))
        else Except.ok (some (round4 (floatVal n.toList)))
      else Except.error ()) = Except.ok (some (round4 (floatVal n.toList / 1000)))
    rw [if_pos hfok, if_pos (Or.inr rfl)]
  · unfold convert_to_kg
    rw [hkg]
    show (if floatOk n.toList = true then
        if ['k', 'g'] = ['g'] ∨ ['k', 'g'] = ['m', 'l'] then
          Except.ok (some (round4 (floatVal n.toList / 1000)))
        else Except.ok (some (round4 (floatVal n.toList)))
      else Except.error ()) = Except.ok (some (round4 (floatVal n.toList)))
    rw [if_pos hfok, if_neg (by decide)]
  · unfold convert_to_kg
    rw [hs]

/-- Claim C2 witness: the unit cases evaluated at the numeric string
`"100"` and the unmatched string `"abc"`. -/
theorem convert_to_kg_unit_cases_witness :
    convert_to_kg ("100" ++ " g") =
      .ok (some (round4 (floatVal "100".toList / 1000))) ∧
    convert_to_kg ("100" ++ " ml") =
      .ok (some (round4 (floatVal "100".toList / 1000))) ∧
    convert_to_kg ("100" ++ " kg") = .ok (some (round4 (floatVal "100".toList))) ∧
    convert_to_kg "abc" = .ok none :=
  convert_to_kg_unit_cases "100" "abc" (by decide) (by decide) (by decide) rfl

/-! ## Claim C6 -/

theorem wsTokensF_nil (n : Nat) : wsTokensF n [] = [] := by cases n <;> rfl

theorem wsTokensF_cons_space (n : Nat) (c : Char) (cs : List Char)
    (hc : isSpaceCh c = true) : wsTokensF (n + 1) (c :: cs) = wsTokensF n cs := by
  show (if isSpaceCh c = true then wsTokensF n cs
      else (c :: cs.takeWhile (fun d => !isSpaceCh d)) ::
        wsTokensF n (cs.dropWhile (fun d => !isSpaceCh d))) = wsTokensF n cs
  rw [if_pos hc]

theorem wsTokensF_cons_nonspace (n : Nat) (c : Char) (cs : List Char)
    (hc : isSpaceCh c = false) :
    wsTokensF (n + 1) (c :: cs) =
      (c :: cs.takeWhile (fun d => !isSpaceCh d)) ::
        wsTokensF n (cs.dropWhile (fun d => !isSpaceCh d)) := by
  show (if isSpaceCh c = true then wsTokensF n cs
      else (c :: cs.takeWhile (fun d => !isSpaceCh d)) ::
        wsTokensF n (cs.dropWhile (fun d => !isSpaceCh d))) = _
  rw [if_neg (by simp [hc])]

theorem wsTokensF_congr :
    ∀ (mm n : Nat) (cs : List Char), cs.length ≤ mm → cs.length ≤ n →
      wsTokensF mm cs = wsTokensF n cs := by
  intro mm
  induction mm with
  | zero =>
    intro n cs hm hn
    have hnil : cs = [] := List.length_eq_zero.mp (Nat.le_zero.mp hm)
    subst hnil
    rw [wsTokensF_nil, wsTokensF_nil]
  | succ mm ih =>
    intro n cs hm hn
    cases cs with
    | nil => rw [wsTokensF_nil, wsTokensF_nil]
    | cons c cs' =>
      cases n with
      | zero => rw [List.length_cons] at hn; omega
      | succ n' =>
        rw [List.length_cons] at hm hn
        by_cases hsp : isSpaceCh c = true
        · rw [wsTokensF_cons_space mm c cs' hsp, wsTokensF_cons_space n' c cs' hsp]
          exact ih n' cs' (by omega) (by omega)
        · have hsp' : isSpaceCh c = false := by simpa using hsp
          rw [wsTokensF_cons_nonspace mm c cs' hsp',
            wsTokensF_cons_nonspace n' c cs' hsp']
          congr 1
          have hle : (cs'.dropWhile (fun d => !isSpaceCh d)).length ≤ cs'.length :=
            (List.dropWhile_sublist _).length_le
          exact ih n' _ (by omega) (by omega)

theorem wsTokens_token_sep (tok rest : List Char) (h1 : tok ≠ [])
    (h2 : ∀ c ∈ tok, isSpaceCh c = false) :
    wsTokens (tok ++ ' ' :: rest) = tok :: wsTokens rest := by
  cases tok with
  | nil => exact absurd rfl h1
  | cons c tok' =>
    have hc := h2 c (List.mem_cons_self _ _)
    have htok' : ∀ x ∈ tok', isSpaceCh x = false :=
      fun x hx => h2 x (List.mem_cons_of_mem _ hx)
    have hpair := takeWhile_append_stop (p := fun d => !isSpaceCh d)
      (l := tok') (fun x hx => by simp [htok' x hx]) (c := ' ') (by decide) rest
    unfold wsTokens
    rw [List.cons_append, List.length_cons,
      wsTokensF_cons_nonspace _ c _ hc, hpair.1, hpair.2]
    congr 1
    rw [show (tok' ++ ' ' :: rest).length = (tok'.length + rest.length) + 1 from
      by simp [List.length_append]; omega]
    rw [wsTokensF_cons_space _ ' ' rest (by decide)]
    show wsTokensF (tok'.length + rest.length) rest = wsTokensF rest.length rest
    exact wsTokensF_congr _ _ rest (by omega) (le_refl _)

theorem wsTokens_single (tok : List Char) (h1 : tok ≠ [])
    (h2 : ∀ c ∈ tok, isSpaceCh c = false) : wsTokens tok = [tok] := by
  cases tok with
  | nil => exact absurd rfl h1
  | cons c tok' =>
    have hc := h2 c (List.mem_cons_self _ _)
    have htok' : ∀ x ∈ tok', (fun d => !isSpaceCh d) x = true :=
      fun x hx => by simp [h2 x (List.mem_cons_of_mem _ hx)]
    unfold wsTokens
    rw [List.length_cons, wsTokensF_cons_nonspace _ c _ hc,
      takeWhile_eq_of_all htok', dropWhile_eq_nil_of_all htok', wsTokensF_nil]

theorem digit_not_space {c : Char} (h : isDigitCh c = true) :
    isSpaceCh c = false := by
  unfold isDigitCh at h
  unfold isSpaceCh
  simp only [decide_eq_true_eq] at h
  simp only [decide_eq_false_iff_not]
  omega

theorem list_len2 {l : List α} (h : l.length = 2) : ∃ a b, l = [a, b] := by
  rcases l with _ | ⟨a, _ | ⟨b, _ | ⟨c, l⟩⟩⟩ <;> simp_all <;> omega

theorem string_data_ext {s1 s2 : String} (h : s1.data = s2.data) : s1 = s2 := by
  cases s1
  cases s2
  exact congrArg String.mk h

/-- Claim C6 (corrected): the worded-date normaliser leaves every string
on which its pattern fails unmodified, and rewrites
`"<4-digit year> <word-month> <2-digit day>"` to `YEAR-MONTH-DAY`; but
because `re.match` is a prefix match, strings that merely begin with
that shape are also rewritten (with everything after the first three
whitespace-separated fields discarded) instead of being returned
unmodified, and the ISO-like worded variants are not handled (they fall
into the unmodified case). -/
theorem convert_worded_date_shape (s y m d : String)
    (hs : wordedMatch s.toList = false)
    (hy_len : y.toList.length = 4)
    (hy_dig : ∀ c ∈ y.toList, isDigitCh c = true)
    (hm_ne : m.toList ≠ [])
    (hm_word : ∀ c ∈ m.toList, isWordCh c = true)
    (hd_len : d.toList.length = 2)
    (hd_dig : ∀ c ∈ d.toList, isDigitCh c = true) :
    convert_worded_date s = s ∧
      convert_worded_date (y ++ " " ++ m ++ " " ++ d) =
        y ++ "-" ++ m ++ "-" ++ d := by
  constructor
  · unfold convert_worded_date
    rw [if_neg (by intro hcon; rw [hs] at hcon; exact Bool.noConfusion hcon)]
  · have hsp1 : (" " : String).data = [' '] := rfl
    have hdata : (y ++ " " ++ m ++ " " ++ d).toList =
        y.toList ++ ' ' :: (m.toList ++ ' ' :: d.toList) := by
      show (y ++ " " ++ m ++ " " ++ d).data =
          y.data ++ ' ' :: (m.data ++ ' ' :: d.data)
      simp [String.data_append, hsp1]
    obtain ⟨a, b, c, e, hy4⟩ := list_len4 hy_len
    obtain ⟨d1, d2, hdd⟩ := list_len2 hd_len
    have hda : isDigitCh a = true := hy_dig a (by rw [hy4]; simp)
    have hdb : isDigitCh b = true := hy_dig b (by rw [hy4]; simp)
    have hdc : isDigitCh c = true := hy_dig c (by rw [hy4]; simp)
    have hde : isDigitCh e = true := hy_dig e (by rw [hy4]; simp)
    have hg1 : isDigitCh d1 = true := hd_dig d1 (by rw [hdd]; simp)
    have hg2 : isDigitCh d2 = true := hd_dig d2 (by rw [hdd]; simp)
    have hmw : (m.toList ++ ' ' :: d.toList).takeWhile isWordCh = m.toList :=
      (takeWhile_append_stop hm_word (c := ' ') (by decide) d.toList).1
    have hmlen : 1 ≤ m.toList.length := by
      cases hm : m.toList with
      | nil => exact absurd hm hm_ne
      | cons x l => rw [List.length_cons]; omega
    have hmatch : wordedMatch ((y ++ " " ++ m ++ " " ++ d).toList) = true := by
      rw [hdata, hy4]
      simp only [List.cons_append, List.nil_append]
      show (isDigitCh a && isDigitCh b && isDigitCh c && isDigitCh e &&
          decide (' ' = ' ') &&
          (decide (1 ≤ ((m.toList ++ ' ' :: d.toList).takeWhile isWordCh).length) &&
            match (m.toList ++ ' ' :: d.toList).drop
                ((m.toList ++ ' ' :: d.toList).takeWhile isWordCh).length with
            | sp2 :: g1 :: g2 :: _ =>
              decide (sp2 = ' ') && isDigitCh g1 && isDigitCh g2
            | _ => false)) = true
      rw [hmw, List.drop_left, hdd]
      have hmlen2 : 1 ≤ m.length := hmlen
      simp [hda, hdb, hdc, hde, hg1, hg2, hmlen, hmlen2]
    have hparts : wsTokens ((y ++ " " ++ m ++ " " ++ d).toList) =
        [y.toList, m.toList, d.toList] := by
      rw [hdata]
      rw [wsTokens_token_sep y.toList (m.toList ++ ' ' :: d.toList)
        (by rw [hy4]; simp) (fun x hx => digit_not_space (hy_dig x hx))]
      rw [wsTokens_token_sep m.toList d.toList hm_ne
        (fun x hx => word_not_space (hm_word x hx))]
      rw [wsTokens_single d.toList (by rw [hdd]; simp)
        (fun x hx => digit_not_space (hd_dig x hx))]
    unfold convert_worded_date
    rw [if_pos hmatch]
    show (⟨(wsTokens ((y ++ " " ++ m ++ " " ++ d).toList)).getD 0 [] ++
        '-' :: (wsTokens ((y ++ " " ++ m ++ " " ++ d).toList)).getD 1 [] ++
        '-' :: (wsTokens ((y ++ " " ++ m ++ " " ++ d).toList)).getD 2 []⟩ :
          String) = y ++ "-" ++ m ++ "-" ++ d
    rw [hparts]
    have hg0 : ([y.toList, m.toList, d.toList]).getD 0 ([] : List Char) =
        y.toList := rfl
    have hgm : ([y.toList, m.toList, d.toList]).getD 1 ([] : List Char) =
        m.toList := rfl
    have hgd : ([y.toList, m.toList, d.toList]).getD 2 ([] : List Char) =
        d.toList := rfl
    rw [hg0, hgm, hgd]
    apply string_data_ext
    show (y.toList ++ '-' :: m.toList ++ '-' :: d.toList) =
        (y ++ "-" ++ m ++ "-" ++ d).data
    have hdashd : ("-" : String).data = ['-'] := rfl
    have htl : ∀ s1 : String, s1.toList = s1.data := fun _ => rfl
    simp [String.data_append, hdashd, htl, List.append_assoc]

/-- Claim C6 witness: identity on `"15/06/1990"` and the rewrite of
`"2020 October 05"` to `"2020-October-05"`. -/
theorem convert_worded_date_shape_witness :
    convert_worded_date "15/06/1990" = "15/06/1990" ∧
      convert_worded_date ("2020" ++ " " ++ "October" ++ " " ++ "05") =
        "2020" ++ "-" ++ "October" ++ "-" ++ "05" :=
  convert_worded_date_shape "15/06/1990" "2020" "October" "05" (by decide)
    (by decide) (by decide) (by decide) (by decide) (by decide) (by decide)
